import Mathlib

/-!
Verification of the TapVote prediction-market engine
(`backend/src/services/predictionMarket.ts`, class `PredictionMarketService`).

Shallow embedding conventions:
* JavaScript numbers are modelled as exact rationals (`ℚ`).  The one place
  where IEEE-754 special values are observable — the odds-normalization step,
  which divides by the sum of raw probabilities with no zero guard — is
  modelled by `JsNum`, a rational extended with the JavaScript values
  `Infinity`, `-Infinity` and `NaN`, with the IEEE semantics of the three
  arithmetic operations the source applies to a possibly-special value.
* `DateTime` columns and `Date` values are epoch-millisecond rationals.
* Database tables (Prisma models) are lists of records inside a `Store`;
  `prisma.<table>.update({ where: { id } })` is a map replacing the rows whose
  key matches (`updateBy`), `create` appends, and a thrown `Error` is an
  `Except.error` produced before any write of the failing call.
* Integer columns of the Prisma schema (`points`, `payout`, `reputation`,
  `orderIndex`) are `ℤ`; `Float` columns (`confidence`, `percentage`) are `ℚ`;
  `String` ids are `String`.
* The schema file shipped with the repository declares no VoteSnapshot,
  PollAnalytics, Achievement, UserAchievement or Notification model; those
  tables are modelled with exactly the columns the service reads and writes.
* `logger` calls and the WebSocket stub `updateMarketOdds` have no effect on
  any data the service can later read, and are dropped.
-/

namespace TapVote

/-! ## JavaScript number values

`JsNum` is the value space of a JavaScript `number` as far as this service
can observe it: an exact finite value, one of the two infinities, or `NaN`.
All finite arithmetic in the service is carried out directly on `ℚ`; `JsNum`
enters only where the source can produce a special value (the odds
normalization `0.95 / totalProb` and everything downstream of it). -/

inductive JsNum where
  | num : ℚ → JsNum
  | posInf : JsNum
  | negInf : JsNum
  | nan : JsNum
deriving DecidableEq, Repr

namespace JsNum

/-- JavaScript division `a / b` of finite values: finite when `b ≠ 0`,
`±Infinity` when `a ≠ 0, b = 0` (the service only ever divides by a
nonnegative sum, so the dividend sign decides), `NaN` for `0 / 0`. -/
def jsDiv (a b : ℚ) : JsNum :=
  if b ≠ 0 then .num (a / b)
  else if 0 < a then .posInf
  else if a < 0 then .negInf
  else .nan

/-- JavaScript multiplication of a finite value by a possibly-special value:
`0 * ±Infinity = NaN`, `NaN` absorbs. -/
def jsMul (a : ℚ) : JsNum → JsNum
  | .num q => .num (a * q)
  | .posInf => if 0 < a then .posInf else if a < 0 then .negInf else .nan
  | .negInf => if 0 < a then .negInf else if a < 0 then .posInf else .nan
  | .nan => .nan

/-- JavaScript addition on possibly-special values (`Infinity + -Infinity = NaN`,
`NaN` absorbs). -/
def jsAdd : JsNum → JsNum → JsNum
  | .num a, .num b => .num (a + b)
  | .num _, .posInf => .posInf
  | .num _, .negInf => .negInf
  | .posInf, .num _ => .posInf
  | .negInf, .num _ => .negInf
  | .posInf, .posInf => .posInf
  | .negInf, .negInf => .negInf
  | .posInf, .negInf => .nan
  | .negInf, .posInf => .nan
  | .nan, _ => .nan
  | _, .nan => .nan

/-- JavaScript subtraction on possibly-special values. -/
def jsSub : JsNum → JsNum → JsNum
  | .num a, .num b => .num (a - b)
  | .num _, .posInf => .negInf
  | .num _, .negInf => .posInf
  | .posInf, .num _ => .posInf
  | .negInf, .num _ => .negInf
  | .posInf, .negInf => .posInf
  | .negInf, .posInf => .negInf
  | .posInf, .posInf => .nan
  | .negInf, .negInf => .nan
  | .nan, _ => .nan
  | _, .nan => .nan

/-- JavaScript reciprocal `1 / x`; `1 / 0 = Infinity` (the service reaches the
zero case only behind an `=== 0` guard), `1 / ±Infinity = 0`, `1 / NaN = NaN`. -/
def jsRecip : JsNum → JsNum
  | .num q => if q = 0 then .posInf else .num (1 / q)
  | .posInf => .num 0
  | .negInf => .num 0
  | .nan => .nan

/-- The JavaScript comparison `x >= 1` (false on `NaN`). -/
def jsGeOne : JsNum → Bool
  | .num q => decide (1 ≤ q)
  | .posInf => true
  | .negInf => false
  | .nan => false

/-- The JavaScript comparison `x > 0` (false on `NaN`); used to model the
three-way comparator handed to `Array.prototype.sort`. -/
def jsIsPos : JsNum → Bool
  | .num q => decide (0 < q)
  | .posInf => true
  | .negInf => false
  | .nan => false

/-- The finite value carried by a `JsNum`, defaulting to `0`. -/
def toQ : JsNum → ℚ
  | .num q => q
  | _ => 0

end JsNum

/-- `Number.prototype.toFixed(1)` on a finite value: one fractional digit,
rounding to the nearest multiple of `1/10` (the float-level tie behaviour of
`toFixed` is immaterial to every claim; `round` is nearest-with-half-up). -/
def toFixed1 (q : ℚ) : String :=
  let n : ℤ := round (q * 10)
  let sign := if n < 0 then "-" else ""
  let m := n.natAbs
  sign ++ toString (m / 10) ++ "." ++ toString (m % 10)

/-- String interpolation of a `JsNum` as `toFixed(1)` renders it
(`NaN.toFixed(1) = "NaN"`, `Infinity.toFixed(1) = "Infinity"`). -/
def JsNum.jsToFixed1 : JsNum → String
  | .num q => toFixed1 q
  | .posInf => "Infinity"
  | .negInf => "-Infinity"
  | .nan => "NaN"

/-! ## Data model (Prisma rows restricted to the columns this service uses) -/

/-- Row of `predictions`. -/
structure Prediction where
  id : String
  userId : String
  pollId : String
  optionId : String
  confidence : ℚ
  points : ℤ
  reasoning : Option String
  payout : Option ℤ
  isResolved : Bool
  createdAt : ℚ
  resolvedAt : Option ℚ
deriving DecidableEq, Repr

/-- Row of `polls` (columns the service reads or writes). -/
structure Poll where
  id : String
  isActive : Bool
  expiresAt : Option ℚ
  resolvedAt : Option ℚ
  resolutionResult : Option String
  resolutionSource : Option String
deriving DecidableEq, Repr

/-- Row of `poll_options`. -/
structure PollOption where
  id : String
  pollId : String
  orderIndex : ℤ
deriving DecidableEq, Repr

/-- Row of `poll_option_translations`. -/
structure PollOptionTranslation where
  optionId : String
  language : String
  text : String
deriving DecidableEq, Repr

/-- Row of `users` (columns the service reads or writes). -/
structure User where
  id : String
  username : Option String
  displayName : Option String
  avatar : Option String
  reputation : ℤ
deriving DecidableEq, Repr

/-- Row of the snapshot table read by `calculateVolatility` (model absent from
the shipped schema; columns taken from the reads `pollId`, `snapshotDate`,
`percentage`). -/
structure VoteSnapshot where
  pollId : String
  snapshotDate : ℚ
  percentage : ℚ
deriving DecidableEq, Repr

/-- Row of the analytics table written by `updatePollAnalytics` (model absent
from the shipped schema; columns taken from the upsert). -/
structure PollAnalyticsRow where
  pollId : String
  date : ℚ
  uniqueVoters : ℕ
  totalVotes : ℕ
  engagementRate : ℚ
deriving DecidableEq, Repr

/-- Row of the achievements table read by `unlockAchievement`. -/
structure Achievement where
  id : String
  name : String
deriving DecidableEq, Repr

/-- Row of the user-achievements table written by `unlockAchievement`. -/
structure UserAchievement where
  userId : String
  achievementId : String
  isCompleted : Bool
deriving DecidableEq, Repr

/-- Row of the notifications table; the JSON `data` payload is flattened into
the optional columns the service actually stores. -/
structure Notification where
  userId : String
  ntype : String
  title : String
  message : String
  dataPollId : Option String
  dataPredictionId : Option String
  dataPayout : Option (Option ℤ)
  dataAchievementId : Option String
deriving DecidableEq, Repr

/-- The database state visible to the service. -/
structure Store where
  polls : List Poll
  options : List PollOption
  optionTranslations : List PollOptionTranslation
  predictions : List Prediction
  users : List User
  snapshots : List VoteSnapshot
  analytics : List PollAnalyticsRow
  achievements : List Achievement
  userAchievements : List UserAchievement
  notifications : List Notification
deriving DecidableEq, Repr

/-- Errors thrown by the service, named after the thrown messages. -/
inductive MarketError where
  | confidenceOutOfRange
  | pointsOutOfRange
  | pollNotActive
  | pollExpired
  | notFound
  | alreadyResolved
deriving DecidableEq, Repr

/-- `prisma.<table>.update({ where: <key = i> })`: replace every row whose key
matches (the key columns are unique in the database, so at most one row). -/
def updateBy {α : Type} (key : α → String) (i : String) (f : α → α) (l : List α) : List α :=
  l.map fun x => if key x = i then f x else x

/-- `prisma.poll.findUnique({ where: { id } })`. -/
def findPoll (s : Store) (pollId : String) : Option Poll :=
  s.polls.find? fun pl => pl.id == pollId

/-! ## Service constants (`private readonly` fields) -/

def HOUSE_EDGE : ℚ := 0.05
def MIN_PREDICTION : ℤ := 1
def MAX_PREDICTION : ℤ := 1000
def CONFIDENCE_WEIGHT : ℚ := 0.7
def VOLUME_WEIGHT : ℚ := 0.3

/-! ## Odds calculator -/

/-- The unresolved predictions reached through an option's `predictions`
relation with `where: { isResolved: false }`. -/
def unresolvedPredsOfOption (s : Store) (optId : String) : List Prediction :=
  s.predictions.filter fun p => p.optionId == optId && !p.isResolved

/-- The options reached through a poll's `options` relation. -/
def optionsOfPoll (s : Store) (pid : String) : List PollOption :=
  s.options.filter fun o => o.pollId == pid

/-- `calculateWeightedConfidence`: stake-weighted mean of confidence. -/
def calculateWeightedConfidence (predictions : List Prediction) : ℚ :=
  if predictions.isEmpty then 0
  else
    let totalWeight : ℤ := (predictions.map Prediction.points).sum
    if totalWeight = 0 then 0
    else (predictions.map fun p => p.confidence * (p.points : ℚ)).sum / (totalWeight : ℚ)

/-- `calculateMarketProbability`: volume share and weighted confidence blended
with the two weight constants. -/
def calculateMarketProbability (predictions : List Prediction) (totalVolume : ℤ) : ℚ :=
  if predictions.isEmpty ∨ totalVolume = 0 then 0
  else
    let optionVolume : ℤ := (predictions.map Prediction.points).sum
    let weightedConfidence := calculateWeightedConfidence predictions
    let volumeShare : ℚ := (optionVolume : ℚ) / (totalVolume : ℚ)
    volumeShare * VOLUME_WEIGHT + weightedConfidence * CONFIDENCE_WEIGHT

/-- `formatOdds` applied to a possibly-special probability value. -/
def formatOdds (probability : JsNum) : String :=
  if probability = .num 0 then "∞:1"
  else if probability = .num 1 then "1:∞"
  else
    let odds := JsNum.jsSub (JsNum.jsRecip probability) (.num 1)
    if JsNum.jsGeOne odds then odds.jsToFixed1 ++ ":1"
    else "1:" ++ (JsNum.jsRecip odds).jsToFixed1

inductive Trend where
  | up | down | stable
deriving DecidableEq, Repr

/-- `calculateTrend`: compares mean confidence of the first and second half of
the last 24 hours of predictions on the option, ordered by creation time. -/
def calculateTrend (s : Store) (now : ℚ) (optionId : String) : Trend :=
  let recent := (s.predictions.filter fun p =>
      p.optionId == optionId && decide (now - 24 * 60 * 60 * 1000 ≤ p.createdAt)).mergeSort
    fun a b => decide (a.createdAt ≤ b.createdAt)
  if recent.length < 2 then .stable
  else
    let firstHalf := recent.take (recent.length / 2)
    let secondHalf := recent.drop (recent.length / 2)
    let firstAvg := (firstHalf.map Prediction.confidence).sum / (firstHalf.length : ℚ)
    let secondAvg := (secondHalf.map Prediction.confidence).sum / (secondHalf.length : ℚ)
    if firstAvg + 0.05 < secondAvg then .up
    else if secondAvg < firstAvg - 0.05 then .down
    else .stable

/-- The display text of an option: its first English translation, with the
`Option <n>` fallback. -/
def optionDisplayText (s : Store) (o : PollOption) : String :=
  match (s.optionTranslations.filter fun t => t.optionId == o.id && t.language == "en").head? with
  | some t => t.text
  | none => s!"Option {o.orderIndex + 1}"

/-- One returned market-odds record.  `probability` is a `JsNum` because the
normalization step can produce `NaN` (see `getMarketOdds`). -/
structure MarketOdds where
  optionId : String
  optionText : String
  probability : JsNum
  impliedOdds : String
  volume : ℤ
  trend : Trend
  confidence : ℚ
deriving DecidableEq, Repr

/-- The record pushed for one option before normalization; its probability is
still an ordinary finite number. -/
structure RawOdds where
  optionId : String
  optionText : String
  probability : ℚ
  impliedOdds : String
  volume : ℤ
  trend : Trend
  confidence : ℚ
deriving DecidableEq, Repr

/-- `totalVolume` over all options of the poll. -/
def marketTotalVolume (s : Store) (pid : String) : ℤ :=
  ((optionsOfPoll s pid).map fun o =>
    ((unresolvedPredsOfOption s o.id).map Prediction.points).sum).sum

/-- The raw (pre-normalization) probability of one option. -/
def rawProbability (s : Store) (pid : String) (o : PollOption) : ℚ :=
  calculateMarketProbability (unresolvedPredsOfOption s o.id) (marketTotalVolume s pid)

/-- Sum of raw probabilities over the options of the poll (the `totalProb` the
normalization divides by). -/
def totalRawProbability (s : Store) (pid : String) : ℚ :=
  ((optionsOfPoll s pid).map (rawProbability s pid)).sum

/-- The record pushed onto `marketOdds` for one option. -/
def mkRawOdds (s : Store) (now : ℚ) (pid : String) (o : PollOption) : RawOdds :=
  { optionId := o.id
    optionText := optionDisplayText s o
    probability := rawProbability s pid o
    impliedOdds := formatOdds (.num (rawProbability s pid o))
    volume := ((unresolvedPredsOfOption s o.id).map Prediction.points).sum
    trend := calculateTrend s now o.id
    confidence := calculateWeightedConfidence (unresolvedPredsOfOption s o.id) }

/-- The in-place mutation `odds.probability *= normalizationFactor;
odds.impliedOdds = formatOdds(odds.probability)`. -/
def normalizeOdds (factor : JsNum) (r : RawOdds) : MarketOdds :=
  let p := JsNum.jsMul r.probability factor
  { optionId := r.optionId
    optionText := r.optionText
    probability := p
    impliedOdds := formatOdds p
    volume := r.volume
    trend := r.trend
    confidence := r.confidence }

/-- The comparator `(a, b) => b.probability - a.probability` given to `sort`:
`a` may stay before `b` unless the comparator is positive (a `NaN` comparator
result keeps the stable order). -/
def oddsBefore (a b : MarketOdds) : Bool :=
  !(JsNum.jsSub b.probability a.probability).jsIsPos

/-- `getMarketOdds`: per-option raw odds, normalization by
`(1 - HOUSE_EDGE) / totalProb` (with no guard against `totalProb = 0`), and a
descending sort by probability. -/
def getMarketOdds (s : Store) (now : ℚ) (pollId : String) :
    Except MarketError (List MarketOdds) :=
  match findPoll s pollId with
  | none => .error .notFound
  | some poll =>
    let raw := (optionsOfPoll s poll.id).map (mkRawOdds s now poll.id)
    let totalProb := (raw.map RawOdds.probability).sum
    let normalizationFactor := JsNum.jsDiv (1 - HOUSE_EDGE) totalProb
    let normalized := raw.map (normalizeOdds normalizationFactor)
    .ok (normalized.mergeSort oddsBefore)

/-- The JavaScript reduction `odds.reduce((sum, o) => sum + o.probability, 0)`
over a returned odds list. -/
def listProbSum (l : List MarketOdds) : JsNum :=
  l.foldl (fun acc e => JsNum.jsAdd acc e.probability) (.num 0)

/-! ## Market analytics -/

/-- The unresolved predictions of a poll
(`findMany({ where: { pollId, isResolved: false } })`). -/
def unresolvedPredsOfPoll (s : Store) (pid : String) : List Prediction :=
  s.predictions.filter fun p => p.pollId == pid && !p.isResolved

/-- The reputation of a prediction's author, reached through the `user`
relation (a foreign key, so the user row exists in any reachable database). -/
def userReputation (s : Store) (uid : String) : ℤ :=
  match s.users.find? fun u => u.id == uid with
  | some u => u.reputation
  | none => 0

/-- `calculateConsensus`: confidence weighted by `points * (1 + reputation/1000)`.
The division is exact rational division; its denominator can only vanish for
stakes outside the validated `MIN_PREDICTION` bound, which no stored
prediction has. -/
def calculateConsensus (s : Store) (predictions : List Prediction) : ℚ :=
  if predictions.isEmpty then 0
  else
    let totalWeight := (predictions.map fun p =>
      (p.points : ℚ) * (1 + (userReputation s p.userId : ℚ) / 1000)).sum
    (predictions.map fun p =>
      p.confidence * (p.points : ℚ) * (1 + (userReputation s p.userId : ℚ) / 1000)).sum
      / totalWeight

/-- `calculateMarketEfficiency`: `1` below two predictions, otherwise
`max(0, 1 - variance * 4)`. -/
def calculateMarketEfficiency (predictions : List Prediction) : ℚ :=
  if predictions.length < 2 then 1
  else
    let confidences := predictions.map Prediction.confidence
    let mean := confidences.sum / (confidences.length : ℚ)
    let variance := (confidences.map fun c => (c - mean) ^ 2).sum / (confidences.length : ℚ)
    max 0 (1 - variance * 4)

/-- The poll's snapshots in ascending `snapshotDate` order, capped at 10
(`orderBy: { snapshotDate: asc }, take: 10`). -/
def snapshotsOfPoll (s : Store) (pid : String) : List VoteSnapshot :=
  ((s.snapshots.filter fun v => v.pollId == pid).mergeSort
    fun a b => decide (a.snapshotDate ≤ b.snapshotDate)).take 10

/-- Absolute percentage changes between consecutive snapshots. -/
def percentageChanges : List ℚ → List ℚ
  | a :: b :: rest => |b - a| :: percentageChanges (b :: rest)
  | _ => []

/-- `calculateVolatility`: mean absolute change across consecutive snapshots,
`0` below two snapshots. -/
def calculateVolatility (s : Store) (pid : String) : ℚ :=
  let snapshots := snapshotsOfPoll s pid
  if snapshots.length < 2 then 0
  else
    let changes := percentageChanges (snapshots.map VoteSnapshot.percentage)
    changes.sum / (changes.length : ℚ)

/-- `calculateLiquidityIndex`. -/
def calculateLiquidityIndex (volume : ℤ) (predictors : ℕ) : ℚ :=
  let volumeScore := min ((volume : ℚ) / 10000) 1
  let predictorScore := min ((predictors : ℚ) / 100) 1
  (volumeScore + predictorScore) / 2

structure MarketAnalytics where
  totalVolume : ℤ
  uniquePredictors : ℕ
  averageConfidence : ℚ
  consensusProbability : ℚ
  marketEfficiency : ℚ
  volatility : ℚ
  liquidityIndex : ℚ
deriving DecidableEq, Repr

/-- `getMarketAnalytics`: aggregate metrics over the poll's unresolved
predictions (plain reads; nothing here can throw). -/
def getMarketAnalytics (s : Store) (pollId : String) : MarketAnalytics :=
  let predictions := unresolvedPredsOfPoll s pollId
  let totalVolume : ℤ := (predictions.map Prediction.points).sum
  let uniquePredictors := (predictions.map Prediction.userId).dedup.length
  let averageConfidence : ℚ :=
    if 0 < predictions.length then
      (predictions.map Prediction.confidence).sum / (predictions.length : ℚ)
    else 0
  { totalVolume := totalVolume
    uniquePredictors := uniquePredictors
    averageConfidence := averageConfidence
    consensusProbability := calculateConsensus s predictions
    marketEfficiency := calculateMarketEfficiency predictions
    volatility := calculateVolatility s pollId
    liquidityIndex := calculateLiquidityIndex totalVolume uniquePredictors }

/-! ## Resolution engine -/

/-- The column values written onto the poll row by `resolvePoll`. -/
def resolvedPollRow (now : ℚ) (win src : String) (q : Poll) : Poll :=
  { q with resolvedAt := some now, resolutionResult := some win,
           resolutionSource := some src, isActive := false }

/-- The poll update performed first by `resolvePoll`. -/
def markPollResolved (s : Store) (now : ℚ) (pid win src : String) : Store :=
  { s with polls := updateBy Poll.id pid (resolvedPollRow now win src) s.polls }

/-- The winning predictions among the poll's unresolved predictions. -/
def winningPredsOf (s : Store) (pid win : String) : List Prediction :=
  (unresolvedPredsOfPoll s pid).filter fun p => p.optionId == win

/-- The losing predictions among the poll's unresolved predictions. -/
def losingPredsOf (s : Store) (pid win : String) : List Prediction :=
  (unresolvedPredsOfPoll s pid).filter fun p => !(p.optionId == win)

/-- `totalPool`: stake sum over the poll's unresolved predictions. -/
def totalPoolOf (s : Store) (pid : String) : ℤ :=
  ((unresolvedPredsOfPoll s pid).map Prediction.points).sum

/-- `winningPool`: stake sum over the winning predictions. -/
def winningPoolOf (s : Store) (pid win : String) : ℤ :=
  ((winningPredsOf s pid win).map Prediction.points).sum

/-- `updateUserReputation`: increments the user's reputation by
`Math.floor(pointChange * 0.1 * (1 + confidence))`. -/
def updateUserReputation (st : Store) (uid : String) (pointChange confidence : ℚ) : Store :=
  let reputationChange : ℤ := Int.floor (pointChange * 0.1 * (1 + confidence))
  let f : User → User := fun u => { u with reputation := u.reputation + reputationChange }
  { st with users := updateBy User.id uid f st.users }

/-- `finalPayout` of a winning prediction:
`floor(share * totalPool * (1 - HOUSE_EDGE) * (1 + confidence * 0.1))`. -/
def finalPayoutOf (totalPool winningPool : ℤ) (p : Prediction) : ℤ :=
  let share : ℚ := (p.points : ℚ) / (winningPool : ℚ)
  let basePayout : ℚ := share * (totalPool : ℚ) * (1 - HOUSE_EDGE)
  let confidenceBonus : ℚ := p.confidence * 0.1
  Int.floor (basePayout * (1 + confidenceBonus))

/-- The row update persisted for a winning prediction. -/
def winnerRowUpdate (now : ℚ) (totalPool winningPool : ℤ) (p : Prediction) :
    Prediction → Prediction := fun q =>
  { q with payout := some (finalPayoutOf totalPool winningPool p),
           isResolved := true, resolvedAt := some now }

/-- The row update persisted for a losing prediction. -/
def loserRowUpdate (now : ℚ) : Prediction → Prediction := fun q =>
  { q with payout := some 0, isResolved := true, resolvedAt := some now }

/-- One iteration of the winners loop: persist the payout on the prediction
row, then adjust the author's reputation by the payout. -/
def applyWinner (now : ℚ) (totalPool winningPool : ℤ) (st : Store) (p : Prediction) : Store :=
  let rows := updateBy Prediction.id p.id (winnerRowUpdate now totalPool winningPool p) st.predictions
  let st1 := { st with predictions := rows }
  updateUserReputation st1 p.userId ((finalPayoutOf totalPool winningPool p : ℤ) : ℚ) p.confidence

/-- One iteration of the losers loop: zero payout, and the reputation penalty
`updateUserReputation(userId, -points * 0.1, 0)`. -/
def applyLoser (now : ℚ) (st : Store) (p : Prediction) : Store :=
  let rows := updateBy Prediction.id p.id (loserRowUpdate now) st.predictions
  let st1 := { st with predictions := rows }
  updateUserReputation st1 p.userId (-(p.points : ℚ) * 0.1) 0

/-- The reputation increment a winning prediction earns its author. -/
def winnerRepUpdate (totalPool winningPool : ℤ) (p : Prediction) : User → User := fun u =>
  { u with reputation := u.reputation +
      Int.floor (((finalPayoutOf totalPool winningPool p : ℤ) : ℚ) * 0.1 * (1 + p.confidence)) }

/-- The reputation increment (a penalty) a losing prediction earns its author. -/
def loserRepUpdate (p : Prediction) : User → User := fun u =>
  { u with reputation := u.reputation + Int.floor (-(p.points : ℚ) * 0.1 * 0.1 * (1 + 0)) }

/-- Rendering of a nullable payout inside a notification message template. -/
def payoutText : Option ℤ → String
  | some n => toString n
  | none => "null"

/-- `createResolutionNotifications`: one notification per prediction of the
poll, read back after the payout writes. -/
def createResolutionNotifications (st : Store) (pid win : String) : Store :=
  let predictions := st.predictions.filter fun p => p.pollId == pid
  { st with notifications := st.notifications ++ predictions.map fun p =>
      let isWinner := p.optionId == win
      { userId := p.userId
        ntype := "POLL_RESOLVED"
        title := if isWinner then "Prediction Won!" else "Prediction Resolved"
        message := if isWinner then
            s!"Congratulations! You won {payoutText p.payout} points!"
          else "Your prediction was incorrect, but thanks for participating!"
        dataPollId := some pid
        dataPredictionId := some p.id
        dataPayout := some p.payout
        dataAchievementId := none } }

/-- `resolvePoll`: guard on existence and `resolvedAt`, mark the poll
resolved, and settle payouts.  When `winningPool == 0` the source returns
early: the pool is kept and — notably — the predictions are left untouched. -/
def resolvePoll (s : Store) (now : ℚ) (pid win src : String) : Except MarketError Store :=
  match findPoll s pid with
  | none => .error .notFound
  | some poll =>
    if poll.resolvedAt.isSome then .error .alreadyResolved
    else
      let s1 := markPollResolved s now pid win src
      if winningPoolOf s pid win = 0 then .ok s1
      else
        let s2 := (winningPredsOf s pid win).foldl
          (applyWinner now (totalPoolOf s pid) (winningPoolOf s pid win)) s1
        let s3 := (losingPredsOf s pid win).foldl (applyLoser now) s2
        .ok (createResolutionNotifications s3 pid win)

/-! ## Leaderboard -/

inductive Timeframe where
  | daily | weekly | monthly | all
deriving DecidableEq, Repr

/-- `getTimeframeStart`. -/
def getTimeframeStart (now : ℚ) : Timeframe → Option ℚ
  | .daily => some (now - 24 * 60 * 60 * 1000)
  | .weekly => some (now - 7 * 24 * 60 * 60 * 1000)
  | .monthly => some (now - 30 * 24 * 60 * 60 * 1000)
  | .all => none

/-- The prisma filter `createdAt: startDate ? { gte: startDate } : undefined`. -/
def inTimeframe (startDate : Option ℚ) (p : Prediction) : Bool :=
  match startDate with
  | some t => decide (t ≤ p.createdAt)
  | none => true

/-- JavaScript `||` on optional strings: the empty string is falsy. -/
def jsStrOr (x y : Option String) : Option String :=
  match x with
  | some str => if str = "" then y else some str
  | none => y

structure LeaderboardEntry where
  userId : String
  username : String
  avatar : Option String
  reputation : ℤ
  totalPredictions : ℕ
  totalPayout : ℤ
  totalStake : ℤ
  netProfit : ℤ
  winRate : ℤ
  roi : ℚ
deriving DecidableEq, Repr

/-- The row computed for one selected user. -/
def leaderboardRow (s : Store) (startDate : Option ℚ) (u : User) : LeaderboardEntry :=
  let resolved := s.predictions.filter fun p =>
    p.userId == u.id && p.isResolved && inTimeframe startDate p
  let totalPayout : ℤ := (resolved.map fun p => p.payout.getD 0).sum
  let totalStake : ℤ := (resolved.map Prediction.points).sum
  let winRate : ℚ :=
    if 0 < resolved.length then
      ((resolved.filter fun p => decide (0 < p.payout.getD 0)).length : ℚ)
        / (resolved.length : ℚ)
    else 0
  let roi : ℚ :=
    if 0 < totalStake then ((totalPayout : ℚ) - (totalStake : ℚ)) / (totalStake : ℚ) * 100
    else 0
  { userId := u.id
    username := (jsStrOr u.username (jsStrOr u.displayName (some "Anonymous"))).getD ""
    avatar := u.avatar
    reputation := u.reputation
    totalPredictions := (s.predictions.filter fun p =>
      p.userId == u.id && inTimeframe startDate p).length
    totalPayout := totalPayout
    totalStake := totalStake
    netProfit := totalPayout - totalStake
    winRate := round (winRate * 100)
    roi := ((round (roi * 100) : ℤ) : ℚ) / 100 }

/-- The comparator `(a, b) => b.netProfit - a.netProfit` given to `sort`. -/
def entryBefore (a b : LeaderboardEntry) : Bool :=
  !(decide (a.netProfit < b.netProfit))

/-- `getLeaderboard`: the user query applies `take: limit` BEFORE any
profit computation or sorting (there is no `orderBy` in the query), so the
sort runs over an arbitrary store-order subset of `limit` users. -/
def getLeaderboard (s : Store) (now : ℚ) (timeframe : Timeframe) (limit : ℕ) :
    List LeaderboardEntry :=
  let startDate := getTimeframeStart now timeframe
  let users := (s.users.filter fun u =>
    s.predictions.any fun p => p.userId == u.id && inTimeframe startDate p).take limit
  (users.map (leaderboardRow s startDate)).mergeSort entryBefore

/-! ## Prediction submission -/

structure PredictionPayload where
  userId : String
  pollId : String
  optionId : String
  confidence : ℚ
  points : ℤ
  reasoning : Option String
deriving DecidableEq, Repr

/-- `updatePollAnalytics`: upsert of the poll's daily analytics row, keyed by
`(pollId, date)`; `today` is the local-midnight timestamp of the call. -/
def updatePollAnalytics (st : Store) (today : ℚ) (pid : String) : Store :=
  let predictions := st.predictions.filter fun p => p.pollId == pid
  let uniqueVoters := (predictions.map Prediction.userId).dedup.length
  let totalVotes := predictions.length
  let engagementRate : ℚ :=
    if 0 < predictions.length then (predictions.length : ℚ) / 100 else 0
  if st.analytics.any (fun a => a.pollId == pid && a.date == today) then
    { st with analytics := st.analytics.map fun a =>
        if a.pollId == pid && a.date == today then
          { a with uniqueVoters := uniqueVoters, totalVotes := totalVotes,
                   engagementRate := engagementRate }
        else a }
  else
    { st with analytics := st.analytics ++
        [{ pollId := pid, date := today, uniqueVoters := uniqueVoters,
           totalVotes := totalVotes, engagementRate := engagementRate }] }

/-- `unlockAchievement`: no-op when the achievement row is absent, otherwise
an upsert of the user-achievement plus a notification. -/
def unlockAchievement (st : Store) (uid name : String) : Store :=
  match st.achievements.find? fun a => a.name == name with
  | none => st
  | some achievement =>
    let touch : UserAchievement → UserAchievement := fun ua =>
      if ua.userId == uid && ua.achievementId == achievement.id then
        { ua with isCompleted := true }
      else ua
    let st1 :=
      if st.userAchievements.any (fun ua =>
          ua.userId == uid && ua.achievementId == achievement.id) then
        { st with userAchievements := st.userAchievements.map touch }
      else
        { st with userAchievements := st.userAchievements ++
            [{ userId := uid, achievementId := achievement.id, isCompleted := true }] }
    { st1 with notifications := st1.notifications ++
        [{ userId := uid
           ntype := "ACHIEVEMENT_UNLOCKED"
           title := "Achievement Unlocked!"
           message := s!"You earned the \"{achievement.name}\" achievement!"
           dataPollId := none
           dataPredictionId := none
           dataPayout := none
           dataAchievementId := some achievement.id }] }

/-- `checkPredictionAchievements`: milestone unlocks keyed on the user's
total prediction count after the write. -/
def checkPredictionAchievements (st : Store) (uid : String) : Store :=
  let userPredictions := (st.predictions.filter fun p => p.userId == uid).length
  let achievements :=
    (if userPredictions = 1 then ["first_prediction"] else []) ++
    (if userPredictions = 10 then ["prediction_novice"] else []) ++
    (if userPredictions = 100 then ["prediction_expert"] else [])
  achievements.foldl (fun acc name => unlockAchievement acc uid name) st

/-- The updated row written when a prediction for `(userId, pollId)` already
exists: new option, confidence, stake, reasoning and — notably — a fresh
`createdAt`.  A `reasoning` left `undefined` in the payload is skipped by the
store layer, keeping the row's previous value. -/
def overwritePrediction (payload : PredictionPayload) (now : ℚ) (q : Prediction) : Prediction :=
  { q with optionId := payload.optionId
           confidence := payload.confidence
           points := payload.points
           reasoning := match payload.reasoning with
             | some r => some r
             | none => q.reasoning
           createdAt := now }

/-- `createPrediction`: input validation, poll liveness checks, then an
insert-or-replace keyed by the unique `(userId, pollId)` pair, followed by the
analytics and achievement side effects (which touch no prediction row).
`now` is the submission time, `today` its local midnight, `freshId` the id the
store mints for a newly created row. -/
def createPrediction (s : Store) (now today : ℚ) (freshId : String)
    (payload : PredictionPayload) : Except MarketError (Prediction × Store) :=
  if payload.confidence < 0 ∨ 1 < payload.confidence then .error .confidenceOutOfRange
  else if payload.points < MIN_PREDICTION ∨ MAX_PREDICTION < payload.points then
    .error .pointsOutOfRange
  else
    match findPoll s payload.pollId with
    | none => .error .pollNotActive
    | some poll =>
      if !poll.isActive then .error .pollNotActive
      else if (match poll.expiresAt with | some t => decide (t < now) | none => false) then
        .error .pollExpired
      else
        let existing := s.predictions.find? fun p =>
          p.userId == payload.userId && p.pollId == payload.pollId
        let (prediction, s1) :=
          match existing with
          | some ex =>
            (overwritePrediction payload now ex,
             { s with predictions :=
                updateBy Prediction.id ex.id (overwritePrediction payload now) s.predictions })
          | none =>
            let newPred : Prediction :=
              { id := freshId, userId := payload.userId, pollId := payload.pollId,
                optionId := payload.optionId, confidence := payload.confidence,
                points := payload.points, reasoning := payload.reasoning,
                payout := none, isResolved := false, createdAt := now, resolvedAt := none }
            (newPred, { s with predictions := s.predictions ++ [newPred] })
        let s2 := updatePollAnalytics s1 today payload.pollId
        let s3 := checkPredictionAchievements s2 payload.userId
        .ok (prediction, s3)

/-- The transactional run of `resolvePoll`: a thrown error leaves the store
unchanged, because in the source both guards throw before the first write. -/
def resolveRun (s : Store) (now : ℚ) (pid win src : String) : Store :=
  match resolvePoll s now pid win src with
  | .ok s2 => s2
  | .error _ => s

/-- The payout persisted on the prediction row with the given id (`0` when the
row is absent or its payout is still null). -/
def storedPayout (s : Store) (i : String) : ℤ :=
  match s.predictions.find? fun q => q.id == i with
  | some q => q.payout.getD 0
  | none => 0

/-- The odds list returned by a successful `getMarketOdds` call. -/
def marketOddsRun (s : Store) (now : ℚ) (pid : String) : List MarketOdds :=
  match getMarketOdds s now pid with
  | .ok l => l
  | .error _ => []

/-- The store state after a `createPrediction` call (unchanged on error,
since every validation throw precedes the first write). -/
def createPredictionRun (s : Store) (now today : ℚ) (freshId : String)
    (payload : PredictionPayload) : Store :=
  match createPrediction s now today freshId payload with
  | .ok (_, s2) => s2
  | .error _ => s

/-! ## Concrete stores used as test fixtures -/

/-- A live poll with one option and no predictions at all. -/
def StoreNoPredictions : Store :=
  { polls := [
      { id := "p1", isActive := true, expiresAt := none, resolvedAt := none,
        resolutionResult := none, resolutionSource := none }]
    options := [{ id := "A", pollId := "p1", orderIndex := 0 }]
    optionTranslations := [{ optionId := "A", language := "en", text := "Yes" }]
    predictions := [], users := [], snapshots := [], analytics := [],
    achievements := [], userAchievements := [], notifications := [] }

/-- The same poll with a single unresolved prediction: stake 100 at
confidence 1/2 on option A. -/
def StoreOnePrediction : Store :=
  { StoreNoPredictions with
    predictions := [
      { id := "w", userId := "X", pollId := "p1", optionId := "A", confidence := 1/2,
        points := 100, reasoning := none, payout := none, isResolved := false,
        createdAt := 0, resolvedAt := none }]
    users := [
      { id := "X", username := some "x", displayName := none, avatar := none,
        reputation := 0 }] }

/-- The winning prediction of the specification scenario: userX stakes 100 at
confidence 0.9 on option A. -/
def scenarioWinner : Prediction :=
  { id := "w", userId := "X", pollId := "p1", optionId := "A", confidence := 9/10,
    points := 100, reasoning := none, payout := none, isResolved := false,
    createdAt := 0, resolvedAt := none }

/-- The losing prediction of the specification scenario: userY stakes 50 at
confidence 0.4 on option B. -/
def scenarioLoser : Prediction :=
  { id := "l", userId := "Y", pollId := "p1", optionId := "B", confidence := 2/5,
    points := 50, reasoning := none, payout := none, isResolved := false,
    createdAt := 0, resolvedAt := none }

/-- The two-option scenario of the specification: userX stakes 100 at
confidence 0.9 on option A, userY stakes 50 at confidence 0.4 on option B. -/
def StoreScenario : Store :=
  { polls := [
      { id := "p1", isActive := true, expiresAt := none, resolvedAt := none,
        resolutionResult := none, resolutionSource := none }]
    options := [{ id := "A", pollId := "p1", orderIndex := 0 },
                { id := "B", pollId := "p1", orderIndex := 1 }]
    optionTranslations := []
    predictions := [scenarioWinner, scenarioLoser]
    users := [
      { id := "X", username := some "x", displayName := none, avatar := none,
        reputation := 0 },
      { id := "Y", username := some "y", displayName := none, avatar := none,
        reputation := 0 }]
    snapshots := [], analytics := [], achievements := [], userAchievements := [],
    notifications := [] }

/-- A poll whose only prediction is on option B, to be resolved with winner A
(`winningPool = 0`). -/
def StoreLoserOnly : Store :=
  { StoreScenario with predictions := [scenarioLoser] }

/-- A leaderboard user fixture. -/
def lbUser (i : String) : User :=
  { id := i, username := some ("u" ++ i), displayName := none, avatar := none,
    reputation := 0 }

/-- A resolved leaderboard prediction fixture. -/
def lbPrediction (i uid : String) (stake pay : ℤ) : Prediction :=
  { id := i, userId := uid, pollId := "p1", optionId := "A", confidence := 1/2,
    points := stake, reasoning := none, payout := some pay, isResolved := true,
    createdAt := 0, resolvedAt := some 1 }

/-- Three users in store order with net profits 2, 20 and 990: the most
profitable user sits last in store order. -/
def StoreLeaderboard : Store :=
  { polls := [], options := [], optionTranslations := []
    predictions := [lbPrediction "a" "1" 10 12, lbPrediction "b" "2" 10 30,
                    lbPrediction "c" "3" 10 1000]
    users := [lbUser "1", lbUser "2", lbUser "3"]
    snapshots := [], analytics := [], achievements := [], userAchievements := [],
    notifications := [] }

/-- A poll with zero predictions but two stored snapshots whose percentages
moved from 10 to 30. -/
def StoreSnapshots : Store :=
  { polls := [], options := [], optionTranslations := [], predictions := [],
    users := []
    snapshots := [{ pollId := "p1", snapshotDate := 1, percentage := 10 },
                  { pollId := "p1", snapshotDate := 2, percentage := 30 }]
    analytics := [], achievements := [], userAchievements := [], notifications := [] }

/-- A resubmission payload for the prediction stored in `StoreOnePrediction`. -/
def payloadUpdate : PredictionPayload :=
  { userId := "X", pollId := "p1", optionId := "A", confidence := 1, points := 200,
    reasoning := some "why" }

/-! ## Generic lemmas about keyed row updates -/

section UpdateLemmas

variable {α ι : Type}

theorem find?_updateBy (key : α → String) (i j : String) (f : α → α)
    (hf : ∀ x, key (f x) = key x) (l : List α) :
    (updateBy key i f l).find? (fun x => key x == j) =
      (l.find? (fun x => key x == j)).map (fun x => if key x = i then f x else x) := by
  unfold updateBy
  rw [List.find?_map]
  have hp : ((fun x => key x == j) ∘ fun x => if key x = i then f x else x) =
      fun x => key x == j := by
    funext x
    by_cases h : key x = i <;> simp [h, hf]
  rw [hp]

theorem find?_updateBy_ne (key : α → String) (i j : String) (f : α → α)
    (hf : ∀ x, key (f x) = key x) (l : List α) (hne : j ≠ i) :
    (updateBy key i f l).find? (fun x => key x == j) =
      l.find? (fun x => key x == j) := by
  rw [find?_updateBy key i j f hf l]
  cases hfind : l.find? (fun x => key x == j) with
  | none => rfl
  | some x =>
    have hx : key x = j := by simpa using List.find?_some hfind
    simp [hx, hne]

theorem find?_eq_of_nodup_mem (key : α → String) {l : List α}
    (hnd : (l.map key).Nodup) {x : α} (hx : x ∈ l) :
    l.find? (fun y => key y == key x) = some x := by
  induction l with
  | nil => cases hx
  | cons y ys ih =>
    rw [List.map_cons, List.nodup_cons] at hnd
    rcases List.mem_cons.mp hx with rfl | hx2
    · simp [List.find?]
    · have hne : key y ≠ key x := fun h => hnd.1 (h ▸ List.mem_map_of_mem key hx2)
      rw [List.find?_cons_of_neg _ (by simpa using hne)]
      exact ih hnd.2 hx2

theorem find?_foldl_updateBy_of_not_mem (key : α → String) (k : ι → String)
    (a : ι → α → α) (j : String) (ha : ∀ it x, key (a it x) = key x)
    (items : List ι) (l : List α) (hj : ∀ it ∈ items, k it ≠ j) :
    ((items.foldl (fun acc it => updateBy key (k it) (a it) acc) l).find?
        (fun x => key x == j)) =
      l.find? (fun x => key x == j) := by
  induction items generalizing l with
  | nil => rfl
  | cons it rest ih =>
    rw [List.foldl_cons]
    rw [ih (updateBy key (k it) (a it) l) fun it2 h2 => hj it2 (List.mem_cons_of_mem it h2)]
    exact find?_updateBy_ne key (k it) j (a it) (ha it) l
      fun h => hj it (List.mem_cons_self it rest) h.symm

theorem find?_foldl_updateBy_of_mem (key : α → String) (k : ι → String)
    (a : ι → α → α) (ha : ∀ it x, key (a it x) = key x)
    (items : List ι) (l : List α) (it0 : ι)
    (hnd : (items.map k).Nodup) (hmem : it0 ∈ items) :
    ((items.foldl (fun acc it => updateBy key (k it) (a it) acc) l).find?
        (fun x => key x == k it0)) =
      (l.find? (fun x => key x == k it0)).map (a it0) := by
  induction items generalizing l with
  | nil => cases hmem
  | cons it rest ih =>
    rw [List.map_cons, List.nodup_cons] at hnd
    rw [List.foldl_cons]
    rcases List.mem_cons.mp hmem with rfl | hmem2
    · rw [find?_foldl_updateBy_of_not_mem key k a (k it0) ha rest _
        (fun it2 h2 hk => hnd.1 (hk ▸ List.mem_map_of_mem k h2))]
      rw [find?_updateBy key (k it0) (k it0) (a it0) (ha it0) l]
      cases hfind : l.find? (fun x => key x == k it0) with
      | none => rfl
      | some x =>
        have hx : key x = k it0 := by simpa using List.find?_some hfind
        simp [hx]
    · have hne : k it0 ≠ k it := fun h => hnd.1 (h ▸ List.mem_map_of_mem k hmem2)
      rw [ih _ hnd.2 hmem2]
      rw [find?_updateBy_ne key (k it) (k it0) (a it) (ha it) l hne]

end UpdateLemmas

/-! ## Projection lemmas for the resolution loops -/

theorem applyWinner_predictions (now : ℚ) (T W : ℤ) (st : Store) (p : Prediction) :
    (applyWinner now T W st p).predictions =
      updateBy Prediction.id p.id (winnerRowUpdate now T W p) st.predictions := rfl

theorem applyWinner_users (now : ℚ) (T W : ℤ) (st : Store) (p : Prediction) :
    (applyWinner now T W st p).users =
      updateBy User.id p.userId (winnerRepUpdate T W p) st.users := rfl

theorem applyWinner_polls (now : ℚ) (T W : ℤ) (st : Store) (p : Prediction) :
    (applyWinner now T W st p).polls = st.polls := rfl

theorem applyLoser_predictions (now : ℚ) (st : Store) (p : Prediction) :
    (applyLoser now st p).predictions =
      updateBy Prediction.id p.id (loserRowUpdate now) st.predictions := rfl

theorem applyLoser_users (now : ℚ) (st : Store) (p : Prediction) :
    (applyLoser now st p).users =
      updateBy User.id p.userId (loserRepUpdate p) st.users := rfl

theorem applyLoser_polls (now : ℚ) (st : Store) (p : Prediction) :
    (applyLoser now st p).polls = st.polls := rfl

theorem foldl_applyWinner_predictions (now : ℚ) (T W : ℤ) (l : List Prediction) (st : Store) :
    (l.foldl (applyWinner now T W) st).predictions =
      l.foldl (fun acc p => updateBy Prediction.id p.id (winnerRowUpdate now T W p) acc)
        st.predictions := by
  induction l generalizing st with
  | nil => rfl
  | cons p rest ih => rw [List.foldl_cons, List.foldl_cons, ih, applyWinner_predictions]

theorem foldl_applyLoser_predictions (now : ℚ) (l : List Prediction) (st : Store) :
    (l.foldl (applyLoser now) st).predictions =
      l.foldl (fun acc p => updateBy Prediction.id p.id (loserRowUpdate now) acc)
        st.predictions := by
  induction l generalizing st with
  | nil => rfl
  | cons p rest ih => rw [List.foldl_cons, List.foldl_cons, ih, applyLoser_predictions]

theorem foldl_applyWinner_users (now : ℚ) (T W : ℤ) (l : List Prediction) (st : Store) :
    (l.foldl (applyWinner now T W) st).users =
      l.foldl (fun acc p => updateBy User.id p.userId (winnerRepUpdate T W p) acc)
        st.users := by
  induction l generalizing st with
  | nil => rfl
  | cons p rest ih => rw [List.foldl_cons, List.foldl_cons, ih, applyWinner_users]

theorem foldl_applyLoser_users (now : ℚ) (l : List Prediction) (st : Store) :
    (l.foldl (applyLoser now) st).users =
      l.foldl (fun acc p => updateBy User.id p.userId (loserRepUpdate p) acc)
        st.users := by
  induction l generalizing st with
  | nil => rfl
  | cons p rest ih => rw [List.foldl_cons, List.foldl_cons, ih, applyLoser_users]

theorem foldl_applyWinner_polls (now : ℚ) (T W : ℤ) (l : List Prediction) (st : Store) :
    (l.foldl (applyWinner now T W) st).polls = st.polls := by
  induction l generalizing st with
  | nil => rfl
  | cons p rest ih => rw [List.foldl_cons, ih, applyWinner_polls]

theorem foldl_applyLoser_polls (now : ℚ) (l : List Prediction) (st : Store) :
    (l.foldl (applyLoser now) st).polls = st.polls := by
  induction l generalizing st with
  | nil => rfl
  | cons p rest ih => rw [List.foldl_cons, ih, applyLoser_polls]

theorem createResolutionNotifications_predictions (st : Store) (pid win : String) :
    (createResolutionNotifications st pid win).predictions = st.predictions := rfl

theorem createResolutionNotifications_users (st : Store) (pid win : String) :
    (createResolutionNotifications st pid win).users = st.users := rfl

theorem createResolutionNotifications_polls (st : Store) (pid win : String) :
    (createResolutionNotifications st pid win).polls = st.polls := rfl

theorem markPollResolved_predictions (s : Store) (now : ℚ) (pid win src : String) :
    (markPollResolved s now pid win src).predictions = s.predictions := rfl

theorem markPollResolved_users (s : Store) (now : ℚ) (pid win src : String) :
    (markPollResolved s now pid win src).users = s.users := rfl

/-- Inversion of a successful `resolvePoll` call. -/
theorem resolvePoll_ok_elim {s : Store} {now : ℚ} {pid win src : String} {s2 : Store}
    (h : resolvePoll s now pid win src = .ok s2) :
    ∃ poll, findPoll s pid = some poll ∧ poll.resolvedAt = none ∧
      ((winningPoolOf s pid win = 0 ∧ s2 = markPollResolved s now pid win src) ∨
       (winningPoolOf s pid win ≠ 0 ∧
        s2 = createResolutionNotifications
               ((losingPredsOf s pid win).foldl (applyLoser now)
                 ((winningPredsOf s pid win).foldl
                   (applyWinner now (totalPoolOf s pid) (winningPoolOf s pid win))
                   (markPollResolved s now pid win src))) pid win)) := by
  unfold resolvePoll at h
  cases hfp : findPoll s pid with
  | none => rw [hfp] at h; cases h
  | some poll =>
    simp only [hfp] at h
    by_cases hres : poll.resolvedAt.isSome = true
    · rw [if_pos hres] at h; cases h
    · rw [if_neg hres] at h
      refine ⟨poll, rfl, Option.not_isSome_iff_eq_none.mp hres, ?_⟩
      by_cases hw : winningPoolOf s pid win = 0
      · rw [if_pos hw] at h
        exact Or.inl ⟨hw, (Except.ok.inj h).symm⟩
      · rw [if_neg hw] at h
        exact Or.inr ⟨hw, (Except.ok.inj h).symm⟩

theorem findPoll_eq_id {s : Store} {pid : String} {poll : Poll}
    (hfp : findPoll s pid = some poll) : poll.id = pid := by
  simpa using List.find?_some hfp

theorem findPoll_congr {s t : Store} (pid : String) (h : s.polls = t.polls) :
    findPoll s pid = findPoll t pid := by
  unfold findPoll; rw [h]

theorem findPoll_markPollResolved {s : Store} {pid : String} {poll : Poll}
    (now : ℚ) (win src : String) (hfp : findPoll s pid = some poll) :
    findPoll (markPollResolved s now pid win src) pid =
      some (resolvedPollRow now win src poll) := by
  have hid : poll.id = pid := findPoll_eq_id hfp
  show (updateBy Poll.id pid (resolvedPollRow now win src) s.polls).find?
    (fun pl => pl.id == pid) = some (resolvedPollRow now win src poll)
  rw [find?_updateBy Poll.id pid pid (resolvedPollRow now win src) (fun x => rfl) s.polls]
  unfold findPoll at hfp
  rw [hfp]
  simp [hid]

/-- After any successful resolution the stored poll carries the resolution
timestamp and result. -/
theorem findPoll_after_resolve {s : Store} {now : ℚ} {pid win src : String} {s2 : Store}
    (h1 : resolvePoll s now pid win src = .ok s2) :
    ∃ poll, findPoll s pid = some poll ∧ poll.resolvedAt = none ∧
      findPoll s2 pid = some (resolvedPollRow now win src poll) := by
  obtain ⟨poll, hfp, hres, hcase⟩ := resolvePoll_ok_elim h1
  refine ⟨poll, hfp, hres, ?_⟩
  rcases hcase with ⟨_, hs2⟩ | ⟨_, hs2⟩
  · rw [hs2]
    exact findPoll_markPollResolved now win src hfp
  · rw [hs2]
    have hpolls : (createResolutionNotifications
        ((losingPredsOf s pid win).foldl (applyLoser now)
          ((winningPredsOf s pid win).foldl
            (applyWinner now (totalPoolOf s pid) (winningPoolOf s pid win))
            (markPollResolved s now pid win src))) pid win).polls =
        (markPollResolved s now pid win src).polls := by
      rw [createResolutionNotifications_polls, foldl_applyLoser_polls,
        foldl_applyWinner_polls]
    rw [findPoll_congr pid hpolls]
    exact findPoll_markPollResolved now win src hfp

/-- C5.  Resolution is exactly-once: any `resolvePoll` call made after a
successful one on the same poll fails with `AlreadyResolved`, because the
stored poll now has a non-null `resolvedAt`.  The guard throws before the
first write of the failing call, so the error leaves every table unchanged
(this is the error branch of `resolveRun`). -/
theorem resolvePoll_exactly_once
    (s : Store) (now : ℚ) (pid win src : String) (s2 : Store)
    (h1 : resolvePoll s now pid win src = .ok s2)
    (now2 : ℚ) (win2 src2 : String) :
    resolvePoll s2 now2 pid win2 src2 = .error .alreadyResolved ∧
      resolveRun s2 now2 pid win2 src2 = s2 := by
  obtain ⟨poll, _, _, hfp2⟩ := findPoll_after_resolve h1
  have herr : resolvePoll s2 now2 pid win2 src2 = .error .alreadyResolved := by
    unfold resolvePoll
    rw [hfp2]
    simp [resolvedPollRow]
  exact ⟨herr, by unfold resolveRun; rw [herr]⟩

/-- C5 witness: on the concrete two-prediction scenario the first call
succeeds and the second fails with `AlreadyResolved`. -/
theorem resolvePoll_exactly_once_witness :
    resolvePoll StoreScenario 7 "p1" "A" "admin" =
      .ok (resolveRun StoreScenario 7 "p1" "A" "admin") ∧
    resolvePoll (resolveRun StoreScenario 7 "p1" "A" "admin") 8 "p1" "B" "again" =
      .error .alreadyResolved := by
  have h1 : resolvePoll StoreScenario 7 "p1" "A" "admin" =
      .ok (resolveRun StoreScenario 7 "p1" "A" "admin") := by rfl
  exact ⟨h1, (resolvePoll_exactly_once StoreScenario 7 "p1" "A" "admin" _ h1 8 "B" "again").1⟩

/-! ## Row-level characterization of a successful resolution -/

theorem mem_of_unresolvedPred {s : Store} {pid : String} {p : Prediction}
    (hp : p ∈ unresolvedPredsOfPoll s pid) : p ∈ s.predictions :=
  (List.mem_filter.mp hp).1

theorem nodup_ids_unresolved {s : Store} {pid : String}
    (hnd : (s.predictions.map Prediction.id).Nodup) :
    ((unresolvedPredsOfPoll s pid).map Prediction.id).Nodup :=
  List.Nodup.sublist (List.Sublist.map _ (List.filter_sublist _)) hnd

theorem nodup_userIds_winning {s : Store} {pid win : String}
    (hnd : ((unresolvedPredsOfPoll s pid).map Prediction.userId).Nodup) :
    ((winningPredsOf s pid win).map Prediction.userId).Nodup :=
  List.Nodup.sublist (List.Sublist.map _ (List.filter_sublist _)) hnd

theorem nodup_userIds_losing {s : Store} {pid win : String}
    (hnd : ((unresolvedPredsOfPoll s pid).map Prediction.userId).Nodup) :
    ((losingPredsOf s pid win).map Prediction.userId).Nodup :=
  List.Nodup.sublist (List.Sublist.map _ (List.filter_sublist _)) hnd

theorem nodup_ids_winning {s : Store} {pid win : String}
    (hnd : (s.predictions.map Prediction.id).Nodup) :
    ((winningPredsOf s pid win).map Prediction.id).Nodup :=
  List.Nodup.sublist (List.Sublist.map _ (List.filter_sublist _)) (nodup_ids_unresolved hnd)

theorem nodup_ids_losing {s : Store} {pid win : String}
    (hnd : (s.predictions.map Prediction.id).Nodup) :
    ((losingPredsOf s pid win).map Prediction.id).Nodup :=
  List.Nodup.sublist (List.Sublist.map _ (List.filter_sublist _)) (nodup_ids_unresolved hnd)

/-- In a successful resolution with a nonzero winning pool, a winning
prediction's row is rewritten by `winnerRowUpdate`. -/
theorem resolvePoll_winner_row
    {s : Store} {now : ℚ} {pid win src : String} {s2 : Store} {p : Prediction}
    (hnd : (s.predictions.map Prediction.id).Nodup)
    (hp : p ∈ unresolvedPredsOfPoll s pid)
    (hpw : p.optionId = win)
    (h1 : resolvePoll s now pid win src = .ok s2)
    (hw : winningPoolOf s pid win ≠ 0) :
    s2.predictions.find? (fun q => q.id == p.id) =
      some (winnerRowUpdate now (totalPoolOf s pid) (winningPoolOf s pid win) p p) := by
  obtain ⟨poll, hfp, hres, hcase⟩ := resolvePoll_ok_elim h1
  have hinj := List.inj_on_of_nodup_map (@nodup_ids_unresolved s pid hnd)
  have hmemw : p ∈ winningPredsOf s pid win :=
    List.mem_filter.mpr ⟨hp, by simp [hpw]⟩
  rcases hcase with ⟨hw0, _⟩ | ⟨_, hs2⟩
  · exact absurd hw0 hw
  · rw [hs2, createResolutionNotifications_predictions, foldl_applyLoser_predictions,
      foldl_applyWinner_predictions, markPollResolved_predictions]
    rw [find?_foldl_updateBy_of_not_mem Prediction.id Prediction.id
      (fun _it => loserRowUpdate now) p.id (fun _it _x => rfl)
      (losingPredsOf s pid win) _ ?_]
    · rw [find?_foldl_updateBy_of_mem Prediction.id Prediction.id
        (winnerRowUpdate now (totalPoolOf s pid) (winningPoolOf s pid win))
        (fun _it _x => rfl) (winningPredsOf s pid win) s.predictions p
        (nodup_ids_winning hnd) hmemw]
      rw [find?_eq_of_nodup_mem Prediction.id hnd (mem_of_unresolvedPred hp)]
      rfl
    · intro it hit hite
      have hitu : it ∈ unresolvedPredsOfPoll s pid := (List.mem_filter.mp hit).1
      have heq : it = p := hinj hitu hp hite
      have hcond := (List.mem_filter.mp hit).2
      rw [heq] at hcond
      simp [hpw] at hcond

/-- In a successful resolution with a nonzero winning pool, a losing
prediction's row is rewritten by `loserRowUpdate`. -/
theorem resolvePoll_loser_row
    {s : Store} {now : ℚ} {pid win src : String} {s2 : Store} {p : Prediction}
    (hnd : (s.predictions.map Prediction.id).Nodup)
    (hp : p ∈ unresolvedPredsOfPoll s pid)
    (hpl : p.optionId ≠ win)
    (h1 : resolvePoll s now pid win src = .ok s2)
    (hw : winningPoolOf s pid win ≠ 0) :
    s2.predictions.find? (fun q => q.id == p.id) = some (loserRowUpdate now p) := by
  obtain ⟨poll, hfp, hres, hcase⟩ := resolvePoll_ok_elim h1
  have hinj := List.inj_on_of_nodup_map (@nodup_ids_unresolved s pid hnd)
  have hmeml : p ∈ losingPredsOf s pid win :=
    List.mem_filter.mpr ⟨hp, by simp [hpl]⟩
  rcases hcase with ⟨hw0, _⟩ | ⟨_, hs2⟩
  · exact absurd hw0 hw
  · rw [hs2, createResolutionNotifications_predictions, foldl_applyLoser_predictions,
      foldl_applyWinner_predictions, markPollResolved_predictions]
    rw [find?_foldl_updateBy_of_mem Prediction.id Prediction.id
      (fun _it => loserRowUpdate now) (fun _it _x => rfl)
      (losingPredsOf s pid win) _ p (nodup_ids_losing hnd) hmeml]
    rw [find?_foldl_updateBy_of_not_mem Prediction.id Prediction.id
      (winnerRowUpdate now (totalPoolOf s pid) (winningPoolOf s pid win)) p.id
      (fun _it _x => rfl) (winningPredsOf s pid win) s.predictions ?_]
    · rw [find?_eq_of_nodup_mem Prediction.id hnd (mem_of_unresolvedPred hp)]
      rfl
    · intro it hit hite
      have hitu : it ∈ unresolvedPredsOfPoll s pid := (List.mem_filter.mp hit).1
      have heq : it = p := hinj hitu hp hite
      have hcond := (List.mem_filter.mp hit).2
      rw [heq] at hcond
      simp at hcond
      exact hpl hcond

/-- In a successful resolution with a nonzero winning pool, the author of a
losing prediction gets exactly the `loserRepUpdate` reputation penalty,
provided no other prediction of the poll shares the author (the stored
`(userId, pollId)` uniqueness invariant). -/
theorem resolvePoll_loser_user
    {s : Store} {now : ℚ} {pid win src : String} {s2 : Store} {p : Prediction} {u : User}
    (hndu : ((unresolvedPredsOfPoll s pid).map Prediction.userId).Nodup)
    (hp : p ∈ unresolvedPredsOfPoll s pid)
    (hpl : p.optionId ≠ win)
    (h1 : resolvePoll s now pid win src = .ok s2)
    (hw : winningPoolOf s pid win ≠ 0)
    (hu : s.users.find? (fun x => x.id == p.userId) = some u) :
    s2.users.find? (fun x => x.id == p.userId) = some (loserRepUpdate p u) := by
  obtain ⟨poll, hfp, hres, hcase⟩ := resolvePoll_ok_elim h1
  have hinj := List.inj_on_of_nodup_map hndu
  have hmeml : p ∈ losingPredsOf s pid win :=
    List.mem_filter.mpr ⟨hp, by simp [hpl]⟩
  rcases hcase with ⟨hw0, _⟩ | ⟨_, hs2⟩
  · exact absurd hw0 hw
  · rw [hs2, createResolutionNotifications_users, foldl_applyLoser_users,
      foldl_applyWinner_users, markPollResolved_users]
    rw [find?_foldl_updateBy_of_mem User.id Prediction.userId
      loserRepUpdate (fun _it _x => rfl)
      (losingPredsOf s pid win) _ p (nodup_userIds_losing hndu) hmeml]
    rw [find?_foldl_updateBy_of_not_mem User.id Prediction.userId
      (winnerRepUpdate (totalPoolOf s pid) (winningPoolOf s pid win)) p.userId
      (fun _it _x => rfl) (winningPredsOf s pid win) s.users ?_]
    · rw [hu]
      rfl
    · intro it hit hite
      have hitu : it ∈ unresolvedPredsOfPoll s pid := (List.mem_filter.mp hit).1
      have heq : it = p := hinj hitu hp hite
      have hcond := (List.mem_filter.mp hit).2
      rw [heq] at hcond
      simp at hcond
      exact hpl hcond

/-- C3.  In every successful resolution with a positive winning pool, each
winning prediction's persisted payout is exactly
`floor(points / winningPool * totalPool * (1 - HOUSE_EDGE) * (1 + confidence * 0.1))`
and each losing prediction's persisted payout is `0`; rows keep their
identity and are marked resolved at the resolution time. -/
theorem resolvePoll_payout_formula
    (s : Store) (now : ℚ) (pid win src : String) (s2 : Store) (p : Prediction)
    (hnd : (s.predictions.map Prediction.id).Nodup)
    (hp : p ∈ unresolvedPredsOfPoll s pid)
    (h1 : resolvePoll s now pid win src = .ok s2)
    (hw : 0 < winningPoolOf s pid win) :
    (p.optionId = win →
      s2.predictions.find? (fun q => q.id == p.id) =
        some { p with
          payout := some (Int.floor ((p.points : ℚ) / (winningPoolOf s pid win : ℚ) *
            (totalPoolOf s pid : ℚ) * (1 - HOUSE_EDGE) * (1 + p.confidence * 0.1)))
          isResolved := true
          resolvedAt := some now }) ∧
    (p.optionId ≠ win →
      s2.predictions.find? (fun q => q.id == p.id) =
        some { p with payout := some 0, isResolved := true, resolvedAt := some now }) := by
  constructor
  · intro hpw
    rw [resolvePoll_winner_row hnd hp hpw h1 hw.ne']
    rfl
  · intro hpl
    rw [resolvePoll_loser_row hnd hp hpl h1 hw.ne']
    rfl

/-- C3 witness: in the concrete scenario, the winner's persisted payout is
`floor(1 * 150 * 0.95 * 1.09) = 155` and the loser's is `0`. -/
theorem resolvePoll_payout_scenario :
    (resolveRun StoreScenario 7 "p1" "A" "admin").predictions.find?
        (fun q => q.id == "w") =
      some { scenarioWinner with
        payout := some 155
        isResolved := true
        resolvedAt := some 7 } ∧
    (resolveRun StoreScenario 7 "p1" "A" "admin").predictions.find?
        (fun q => q.id == "l") =
      some { scenarioLoser with
        payout := some 0
        isResolved := true
        resolvedAt := some 7 } := by
  have h1 : resolvePoll StoreScenario 7 "p1" "A" "admin" =
      .ok (resolveRun StoreScenario 7 "p1" "A" "admin") := rfl
  have hlist : unresolvedPredsOfPoll StoreScenario "p1" =
      [scenarioWinner, scenarioLoser] := rfl
  have hmemw : scenarioWinner ∈ unresolvedPredsOfPoll StoreScenario "p1" := by
    rw [hlist]; exact List.mem_cons_self _ _
  have hmeml : scenarioLoser ∈ unresolvedPredsOfPoll StoreScenario "p1" := by
    rw [hlist]; exact List.mem_cons_of_mem _ (List.mem_cons_self _ _)
  have hnd : (StoreScenario.predictions.map Prediction.id).Nodup := by
    simp [StoreScenario, scenarioWinner, scenarioLoser]
  have hW : winningPoolOf StoreScenario "p1" "A" = 100 := rfl
  have hT : totalPoolOf StoreScenario "p1" = 150 := rfl
  have hw : (0 : ℤ) < winningPoolOf StoreScenario "p1" "A" := by rw [hW]; norm_num
  constructor
  · have h := (resolvePoll_payout_formula StoreScenario 7 "p1" "A" "admin" _
      scenarioWinner hnd hmemw h1 hw).1 rfl
    refine h.trans ?_
    rw [hW, hT]
    norm_num [scenarioWinner, HOUSE_EDGE]
  · have h := (resolvePoll_payout_formula StoreScenario 7 "p1" "A" "admin" _
      scenarioLoser hnd hmeml h1 hw).2 (by simp [scenarioLoser])
    exact h.trans rfl

/-- C7 (amended).  The reputation change applied to the author of a losing
prediction is `floor(-stake * 0.1 * 0.1 * (1 + 0))` — the floor of the
NEGATED penalty, i.e. `-ceil(stake / 100)`, not `-floor(stake / 100)` as the
specification reads it. -/
theorem loser_reputation_delta
    (s : Store) (now : ℚ) (pid win src : String) (s2 : Store) (p : Prediction) (u : User)
    (hndu : ((unresolvedPredsOfPoll s pid).map Prediction.userId).Nodup)
    (hp : p ∈ unresolvedPredsOfPoll s pid)
    (hpl : p.optionId ≠ win)
    (h1 : resolvePoll s now pid win src = .ok s2)
    (hw : 0 < winningPoolOf s pid win)
    (hu : s.users.find? (fun x => x.id == p.userId) = some u) :
    s2.users.find? (fun x => x.id == p.userId) =
      some { u with reputation := u.reputation + Int.floor (-(p.points : ℚ) * 0.1 * 0.1 * (1 + 0)) } := by
  rw [resolvePoll_loser_user hndu hp hpl h1 hw.ne' hu]
  rfl

/-- C7 witness: the losing stake of 50 loses exactly 1 reputation point
(`floor(-0.5) = -1`), applied to a user starting at reputation 0. -/
theorem loser_reputation_delta_witness :
    (resolveRun StoreScenario 7 "p1" "A" "admin").users.find? (fun x => x.id == "Y") =
      some { id := "Y", username := some "y", displayName := none, avatar := none,
             reputation := -1 } := by
  have h1 : resolvePoll StoreScenario 7 "p1" "A" "admin" =
      .ok (resolveRun StoreScenario 7 "p1" "A" "admin") := rfl
  have hlist : unresolvedPredsOfPoll StoreScenario "p1" =
      [scenarioWinner, scenarioLoser] := rfl
  have hmeml : scenarioLoser ∈ unresolvedPredsOfPoll StoreScenario "p1" := by
    rw [hlist]; exact List.mem_cons_of_mem _ (List.mem_cons_self _ _)
  have hndu : ((unresolvedPredsOfPoll StoreScenario "p1").map Prediction.userId).Nodup := by
    rw [hlist]; simp [scenarioWinner, scenarioLoser]
  have hw : (0 : ℤ) < winningPoolOf StoreScenario "p1" "A" := by
    have h : winningPoolOf StoreScenario "p1" "A" = 100 := rfl
    rw [h]; norm_num
  have hu : StoreScenario.users.find? (fun x => x.id == scenarioLoser.userId) =
      some { id := "Y", username := some "y", displayName := none, avatar := none,
             reputation := 0 } := rfl
  have h := loser_reputation_delta StoreScenario 7 "p1" "A" "admin" _ scenarioLoser _
    hndu hmeml (by decide) h1 hw hu
  refine Eq.trans ?_ (h.trans ?_)
  · rfl
  · norm_num [scenarioLoser]

/-- C7 counterexample: the claim predicts that a losing stake of 50 loses
`floor(50 * 0.01) = 0` reputation, but the stored reputation drops from 0 to
`-1`. -/
theorem loser_reputation_counterexample :
    (resolveRun StoreScenario 7 "p1" "A" "admin").users.find? (fun x => x.id == "Y") =
      some { id := "Y", username := some "y", displayName := none, avatar := none,
             reputation := -1 } ∧
    ¬ ((-1 : ℤ) = 0 - Int.floor ((50 : ℚ) * 0.1 * 0.1)) := by
  have h1 : resolvePoll StoreScenario 7 "p1" "A" "admin" =
      .ok (resolveRun StoreScenario 7 "p1" "A" "admin") := rfl
  have hlist : unresolvedPredsOfPoll StoreScenario "p1" =
      [scenarioWinner, scenarioLoser] := rfl
  have hmeml : scenarioLoser ∈ unresolvedPredsOfPoll StoreScenario "p1" := by
    rw [hlist]; exact List.mem_cons_of_mem _ (List.mem_cons_self _ _)
  have hndu : ((unresolvedPredsOfPoll StoreScenario "p1").map Prediction.userId).Nodup := by
    rw [hlist]; simp [scenarioWinner, scenarioLoser]
  have hw : winningPoolOf StoreScenario "p1" "A" ≠ 0 := by
    have h : winningPoolOf StoreScenario "p1" "A" = 100 := rfl
    rw [h]; norm_num
  have hu : StoreScenario.users.find? (fun x => x.id == scenarioLoser.userId) =
      some { id := "Y", username := some "y", displayName := none, avatar := none,
             reputation := 0 } := rfl
  have h := resolvePoll_loser_user hndu hmeml (by decide) h1 hw hu
  constructor
  · refine Eq.trans ?_ (h.trans ?_)
    · rfl
    · norm_num [loserRepUpdate, scenarioLoser]
  · norm_num

/-- The payouts persisted for the winning predictions are exactly the payout
formula applied to each of them. -/
theorem winners_payout_values
    {s : Store} {now : ℚ} {pid win src : String} {s2 : Store}
    (hnd : (s.predictions.map Prediction.id).Nodup)
    (h1 : resolvePoll s now pid win src = .ok s2)
    (hw : winningPoolOf s pid win ≠ 0) :
    ((winningPredsOf s pid win).map fun p => storedPayout s2 p.id) =
      ((winningPredsOf s pid win).map
        (finalPayoutOf (totalPoolOf s pid) (winningPoolOf s pid win))) := by
  apply List.map_congr_left
  intro p hpW
  have hpU : p ∈ unresolvedPredsOfPoll s pid := (List.mem_filter.mp hpW).1
  have hpw : p.optionId = win := by simpa using (List.mem_filter.mp hpW).2
  have h := resolvePoll_winner_row hnd hpU hpw h1 hw
  unfold storedPayout
  rw [h]
  rfl

theorem mergeSort_pair {α : Type} (le : α → α → Bool) (a b : α) :
    ([a, b] : List α).mergeSort le = if le a b then [a, b] else [b, a] := by
  simp [List.mergeSort, List.merge]

theorem intCast_list_sum (l : List ℤ) :
    ((l.sum : ℤ) : ℚ) = (l.map (Int.cast : ℤ → ℚ)).sum := by
  induction l with
  | nil => simp
  | cons x xs ih => simp [ih]

theorem totalPool_nonneg {s : Store} {pid : String}
    (hpts : ∀ q ∈ s.predictions, 0 ≤ q.points) : 0 ≤ totalPoolOf s pid := by
  refine List.sum_nonneg ?_
  intro x hx
  obtain ⟨p, hp, rfl⟩ := List.mem_map.mp hx
  exact hpts p (mem_of_unresolvedPred hp)

/-- C4 (amended).  The sum of persisted winning payouts is bounded by
`totalPool * (1 - HOUSE_EDGE) * (1 + 0.1)` — the house-edge share inflated by
the maximal confidence bonus — and by `totalPool * (1 - HOUSE_EDGE)` when
every winning confidence bonus is zero.  The tighter bound of the original
claim fails as soon as a bonus is positive. -/
theorem payout_total_bounded
    (s : Store) (now : ℚ) (pid win src : String) (s2 : Store)
    (hnd : (s.predictions.map Prediction.id).Nodup)
    (h1 : resolvePoll s now pid win src = .ok s2)
    (hw : 0 < winningPoolOf s pid win)
    (hpts : ∀ q ∈ s.predictions, 0 ≤ q.points)
    (hconf : ∀ q ∈ s.predictions, 0 ≤ q.confidence ∧ q.confidence ≤ 1) :
    ((((winningPredsOf s pid win).map fun p => storedPayout s2 p.id).sum : ℤ) : ℚ) ≤
      (totalPoolOf s pid : ℚ) * (1 - HOUSE_EDGE) * (1 + 0.1) ∧
    ((∀ p ∈ winningPredsOf s pid win, p.confidence * 0.1 = 0) →
      ((((winningPredsOf s pid win).map fun p => storedPayout s2 p.id).sum : ℤ) : ℚ) ≤
        (totalPoolOf s pid : ℚ) * (1 - HOUSE_EDGE)) := by
  have hWP : (0 : ℚ) < (winningPoolOf s pid win : ℚ) := by exact_mod_cast hw
  have hT0 : (0 : ℚ) ≤ (totalPoolOf s pid : ℚ) := by
    exact_mod_cast totalPool_nonneg hpts
  have hHE : (0 : ℚ) ≤ 1 - HOUSE_EDGE := by norm_num [HOUSE_EDGE]
  have hmap := winners_payout_values hnd h1 hw.ne'
  have hcast : ((((winningPredsOf s pid win).map fun p => storedPayout s2 p.id).sum : ℤ) : ℚ)
      = ((winningPredsOf s pid win).map fun p =>
          ((finalPayoutOf (totalPoolOf s pid) (winningPoolOf s pid win) p : ℤ) : ℚ)).sum := by
    rw [hmap, intCast_list_sum, List.map_map]
    rfl
  have hWPsum : ((winningPredsOf s pid win).map fun p => (p.points : ℚ)).sum
      = (winningPoolOf s pid win : ℚ) := by
    rw [show ((winningPoolOf s pid win : ℤ) : ℚ) =
      (((winningPredsOf s pid win).map Prediction.points).sum : ℚ) from rfl]
    rw [intCast_list_sum, List.map_map]
    rfl
  have key : ∀ bnd : ℚ, (∀ p ∈ winningPredsOf s pid win, 1 + p.confidence * 0.1 ≤ bnd) →
      ((winningPredsOf s pid win).map fun p =>
        ((finalPayoutOf (totalPoolOf s pid) (winningPoolOf s pid win) p : ℤ) : ℚ)).sum ≤
      (totalPoolOf s pid : ℚ) * (1 - HOUSE_EDGE) * bnd := by
    intro bnd hbnd
    have hstep : ((winningPredsOf s pid win).map fun p =>
        ((finalPayoutOf (totalPoolOf s pid) (winningPoolOf s pid win) p : ℤ) : ℚ)).sum ≤
        ((winningPredsOf s pid win).map fun p =>
          (p.points : ℚ) * ((totalPoolOf s pid : ℚ) * (1 - HOUSE_EDGE) * bnd
            / (winningPoolOf s pid win : ℚ))).sum := by
      refine List.sum_le_sum ?_
      intro p hpW
      have hpmem : p ∈ s.predictions :=
        mem_of_unresolvedPred (List.mem_filter.mp hpW).1
      have hc := hconf p hpmem
      have hpt := hpts p hpmem
      have hbase : (0 : ℚ) ≤ (p.points : ℚ) / (winningPoolOf s pid win : ℚ) *
          (totalPoolOf s pid : ℚ) * (1 - HOUSE_EDGE) := by
        have h0 : (0 : ℚ) ≤ (p.points : ℚ) := by exact_mod_cast hpt
        positivity
      have hfl : ((finalPayoutOf (totalPoolOf s pid) (winningPoolOf s pid win) p : ℤ) : ℚ) ≤
          (p.points : ℚ) / (winningPoolOf s pid win : ℚ) * (totalPoolOf s pid : ℚ) *
            (1 - HOUSE_EDGE) * (1 + p.confidence * 0.1) :=
        Int.floor_le _
      refine hfl.trans ?_
      have hmul : (p.points : ℚ) / (winningPoolOf s pid win : ℚ) * (totalPoolOf s pid : ℚ) *
            (1 - HOUSE_EDGE) * (1 + p.confidence * 0.1) ≤
          (p.points : ℚ) / (winningPoolOf s pid win : ℚ) * (totalPoolOf s pid : ℚ) *
            (1 - HOUSE_EDGE) * bnd :=
        mul_le_mul_of_nonneg_left (hbnd p hpW) hbase
      refine hmul.trans (le_of_eq ?_)
      field_simp
      ring
    refine hstep.trans (le_of_eq ?_)
    rw [List.sum_map_mul_right, hWPsum]
    rw [mul_comm]
    rw [div_mul_cancel₀ _ (ne_of_gt hWP)]
  constructor
  · rw [hcast]
    exact key (1 + 0.1) fun p hpW => by
      have hc := (hconf p (mem_of_unresolvedPred (List.mem_filter.mp hpW).1)).2
      nlinarith
  · intro hzero
    rw [hcast]
    have h := key 1 fun p hpW => by rw [hzero p hpW]; norm_num
    simpa using h

/-! ## Positivity of the raw probability mass -/

theorem calculateWeightedConfidence_nonneg {l : List Prediction}
    (hc : ∀ p ∈ l, 0 ≤ p.confidence) (hp : ∀ p ∈ l, 0 ≤ p.points) :
    0 ≤ calculateWeightedConfidence l := by
  unfold calculateWeightedConfidence
  split
  · exact le_refl 0
  · dsimp only
    split
    · exact le_refl 0
    · apply div_nonneg
      · refine List.sum_nonneg ?_
        intro x hx
        obtain ⟨p, hpmem, rfl⟩ := List.mem_map.mp hx
        exact mul_nonneg (hc p hpmem) (by exact_mod_cast hp p hpmem)
      · have h0 : (0 : ℤ) ≤ (l.map Prediction.points).sum := by
          refine List.sum_nonneg ?_
          intro x hx
          obtain ⟨p, hpmem, rfl⟩ := List.mem_map.mp hx
          exact hp p hpmem
        exact_mod_cast h0

theorem calculateMarketProbability_nonneg {l : List Prediction} {tv : ℤ}
    (hc : ∀ p ∈ l, 0 ≤ p.confidence) (hp : ∀ p ∈ l, 0 ≤ p.points)
    (htv : 0 ≤ tv) : 0 ≤ calculateMarketProbability l tv := by
  unfold calculateMarketProbability
  split
  · exact le_refl 0
  · refine add_nonneg (mul_nonneg (div_nonneg ?_ ?_) ?_)
      (mul_nonneg (calculateWeightedConfidence_nonneg hc hp) ?_)
    · have h0 : (0 : ℤ) ≤ (l.map Prediction.points).sum := by
        refine List.sum_nonneg ?_
        intro x hx
        obtain ⟨p, hpmem, rfl⟩ := List.mem_map.mp hx
        exact hp p hpmem
      exact_mod_cast h0
    · exact_mod_cast htv
    · norm_num [VOLUME_WEIGHT]
    · norm_num [CONFIDENCE_WEIGHT]

theorem calculateMarketProbability_pos {l : List Prediction} {tv : ℤ} {p0 : Prediction}
    (hmem : p0 ∈ l) (hp1 : ∀ p ∈ l, 1 ≤ p.points) (hc : ∀ p ∈ l, 0 ≤ p.confidence)
    (htv : (l.map Prediction.points).sum ≤ tv) :
    0 < calculateMarketProbability l tv := by
  have hp0 : ∀ p ∈ l, 0 ≤ p.points := fun p hp => le_trans zero_le_one (hp1 p hp)
  have hvol : (1 : ℤ) ≤ (l.map Prediction.points).sum := by
    refine le_trans (hp1 p0 hmem) ?_
    refine List.single_le_sum ?_ _ (List.mem_map_of_mem Prediction.points hmem)
    intro x hx
    obtain ⟨p, hpmem, rfl⟩ := List.mem_map.mp hx
    exact hp0 p hpmem
  have htv1 : (1 : ℤ) ≤ tv := hvol.trans htv
  unfold calculateMarketProbability
  rw [if_neg (by
    push_neg
    constructor
    · simpa [List.isEmpty_iff] using List.ne_nil_of_mem hmem
    · omega)]
  refine add_pos_of_pos_of_nonneg (mul_pos (div_pos ?_ ?_) (by norm_num [VOLUME_WEIGHT]))
    (mul_nonneg (calculateWeightedConfidence_nonneg hc hp0) (by norm_num [CONFIDENCE_WEIGHT]))
  · exact_mod_cast lt_of_lt_of_le zero_lt_one hvol
  · exact_mod_cast lt_of_lt_of_le zero_lt_one htv1

theorem rawProbability_nonneg (s : Store) (pid : String) (o : PollOption)
    (hpts : ∀ p ∈ s.predictions, 1 ≤ p.points)
    (hconf : ∀ p ∈ s.predictions, 0 ≤ p.confidence) :
    0 ≤ rawProbability s pid o := by
  refine calculateMarketProbability_nonneg ?_ ?_ ?_
  · intro p hp
    exact hconf p (List.mem_filter.mp hp).1
  · intro p hp
    exact le_trans zero_le_one (hpts p (List.mem_filter.mp hp).1)
  · refine List.sum_nonneg ?_
    intro x hx
    obtain ⟨o2, _, rfl⟩ := List.mem_map.mp hx
    refine List.sum_nonneg ?_
    intro y hy
    obtain ⟨p, hpmem, rfl⟩ := List.mem_map.mp hy
    exact le_trans zero_le_one (hpts p (List.mem_filter.mp hpmem).1)

/-- With at least one validated unresolved prediction on the poll, the raw
probability mass the normalization divides by is strictly positive. -/
theorem totalRawProbability_pos (s : Store) (pid : String)
    (hex : ∃ o ∈ s.options, o.pollId = pid ∧
      ∃ p ∈ s.predictions, p.optionId = o.id ∧ p.isResolved = false)
    (hpts : ∀ p ∈ s.predictions, 1 ≤ p.points)
    (hconf : ∀ p ∈ s.predictions, 0 ≤ p.confidence) :
    0 < totalRawProbability s pid := by
  obtain ⟨o, ho, hopid, p0, hp0, hp0o, hp0r⟩ := hex
  have hoMem : o ∈ optionsOfPoll s pid :=
    List.mem_filter.mpr ⟨ho, by simp [hopid]⟩
  have hp0mem : p0 ∈ unresolvedPredsOfOption s o.id :=
    List.mem_filter.mpr ⟨hp0, by simp [hp0o, hp0r]⟩
  have hpos : 0 < rawProbability s pid o := by
    refine calculateMarketProbability_pos hp0mem ?_ ?_ ?_
    · intro p hp
      exact hpts p (List.mem_filter.mp hp).1
    · intro p hp
      exact hconf p (List.mem_filter.mp hp).1
    · unfold marketTotalVolume
      refine List.single_le_sum ?_ _ (List.mem_map_of_mem _ hoMem)
      intro x hx
      obtain ⟨o2, _, rfl⟩ := List.mem_map.mp hx
      refine List.sum_nonneg ?_
      intro y hy
      obtain ⟨p, hpmem, rfl⟩ := List.mem_map.mp hy
      exact le_trans zero_le_one (hpts p (List.mem_filter.mp hpmem).1)
  refine lt_of_lt_of_le hpos ?_
  refine List.single_le_sum ?_ _ (List.mem_map_of_mem _ hoMem)
  intro x hx
  obtain ⟨o2, _, rfl⟩ := List.mem_map.mp hx
  exact rawProbability_nonneg s pid o2 hpts hconf

/-- `reduce`-sum of an odds list whose probabilities are all finite. -/
theorem listProbSum_eq_num {l : List MarketOdds}
    (h : ∀ e ∈ l, ∃ q, e.probability = JsNum.num q) :
    listProbSum l = .num ((l.map fun e => e.probability.toQ).sum) := by
  unfold listProbSum
  suffices haux : ∀ (a : ℚ) (l2 : List MarketOdds),
      (∀ e ∈ l2, ∃ q, e.probability = JsNum.num q) →
      l2.foldl (fun acc e => JsNum.jsAdd acc e.probability) (.num a) =
        .num (a + (l2.map fun e => e.probability.toQ).sum) by
    rw [haux 0 l h, zero_add]
  intro a l2 hl
  induction l2 generalizing a with
  | nil => simp
  | cons e rest ih =>
    obtain ⟨q, hq⟩ := hl e (List.mem_cons_self e rest)
    rw [List.foldl_cons, hq]
    rw [show JsNum.jsAdd (.num a) (.num q) = .num (a + q) from rfl]
    rw [ih (a + q) (fun e2 he2 => hl e2 (List.mem_cons_of_mem e he2))]
    rw [List.map_cons, List.sum_cons, hq]
    rw [show (JsNum.num q).toQ = q from rfl]
    rw [add_assoc]

/-- C1.  For a poll carrying at least one unresolved prediction (whose stored
stakes and confidences satisfy the validation invariants), `getMarketOdds`
returns each option's raw probability scaled by
`(1 - HOUSE_EDGE) / Σ rawProbability`, and the returned probabilities sum to
exactly `1 - HOUSE_EDGE = 0.95`. -/
theorem getMarketOdds_sum_houseEdge
    (s : Store) (now : ℚ) (pid : String) (odds : List MarketOdds)
    (h1 : getMarketOdds s now pid = .ok odds)
    (hex : ∃ o ∈ s.options, o.pollId = pid ∧
      ∃ p ∈ s.predictions, p.optionId = o.id ∧ p.isResolved = false)
    (hpts : ∀ p ∈ s.predictions, 1 ≤ p.points)
    (hconf : ∀ p ∈ s.predictions, 0 ≤ p.confidence) :
    (odds.map MarketOdds.probability).Perm
      ((optionsOfPoll s pid).map fun o =>
        JsNum.num (rawProbability s pid o * ((1 - HOUSE_EDGE) / totalRawProbability s pid))) ∧
    listProbSum odds = .num (1 - HOUSE_EDGE) := by
  have htpos := totalRawProbability_pos s pid hex hpts hconf
  have htne : totalRawProbability s pid ≠ 0 := ne_of_gt htpos
  unfold getMarketOdds at h1
  cases hfp : findPoll s pid with
  | none => rw [hfp] at h1; cases h1
  | some poll =>
    have hid : poll.id = pid := findPoll_eq_id hfp
    simp only [hfp] at h1
    rw [hid] at h1
    replace h1 := Except.ok.inj h1
    subst h1
    have htp : (((optionsOfPoll s pid).map (mkRawOdds s now pid)).map
        RawOdds.probability).sum = totalRawProbability s pid := by
      rw [List.map_map]; rfl
    rw [htp]
    have hfac : JsNum.jsDiv (1 - HOUSE_EDGE) (totalRawProbability s pid) =
        .num ((1 - HOUSE_EDGE) / totalRawProbability s pid) := by
      unfold JsNum.jsDiv
      rw [if_pos htne]
    rw [hfac]
    have hA : ((((optionsOfPoll s pid).map (mkRawOdds s now pid)).map
          (normalizeOdds (.num ((1 - HOUSE_EDGE) / totalRawProbability s pid)))).mergeSort
            oddsBefore |>.map MarketOdds.probability).Perm
        ((optionsOfPoll s pid).map fun o =>
          JsNum.num (rawProbability s pid o *
            ((1 - HOUSE_EDGE) / totalRawProbability s pid))) := by
      refine (List.Perm.map _ (List.mergeSort_perm _ _)).trans ?_
      rw [List.map_map, List.map_map]
      exact List.Perm.of_eq (List.map_congr_left fun o _ => rfl)
    refine ⟨hA, ?_⟩
    have hallnum : ∀ e ∈ (((optionsOfPoll s pid).map (mkRawOdds s now pid)).map
        (normalizeOdds (.num ((1 - HOUSE_EDGE) / totalRawProbability s pid)))).mergeSort
          oddsBefore, ∃ q, e.probability = JsNum.num q := by
      intro e he
      have hm : e.probability ∈ ((((optionsOfPoll s pid).map (mkRawOdds s now pid)).map
          (normalizeOdds (.num ((1 - HOUSE_EDGE) / totalRawProbability s pid)))).mergeSort
            oddsBefore).map MarketOdds.probability :=
        List.mem_map_of_mem _ he
      rw [hA.mem_iff] at hm
      obtain ⟨o, _, heq⟩ := List.mem_map.mp hm
      exact ⟨_, heq.symm⟩
    rw [listProbSum_eq_num hallnum]
    congr 1
    have hmaps : ((((optionsOfPoll s pid).map (mkRawOdds s now pid)).map
        (normalizeOdds (.num ((1 - HOUSE_EDGE) / totalRawProbability s pid)))).mergeSort
          oddsBefore).map (fun e => e.probability.toQ) =
        (((((optionsOfPoll s pid).map (mkRawOdds s now pid)).map
          (normalizeOdds (.num ((1 - HOUSE_EDGE) / totalRawProbability s pid)))).mergeSort
            oddsBefore).map MarketOdds.probability).map JsNum.toQ :=
      (List.map_map JsNum.toQ MarketOdds.probability _).symm
    rw [hmaps, (hA.map JsNum.toQ).sum_eq]
    rw [List.map_map]
    rw [show ((fun n => JsNum.toQ n) ∘ fun o =>
        JsNum.num (rawProbability s pid o * ((1 - HOUSE_EDGE) / totalRawProbability s pid)))
      = fun o => rawProbability s pid o * ((1 - HOUSE_EDGE) / totalRawProbability s pid)
      from rfl]
    rw [List.sum_map_mul_right]
    rw [show ((optionsOfPoll s pid).map (rawProbability s pid)).sum =
      totalRawProbability s pid from rfl]
    rw [mul_comm, div_mul_cancel₀ _ htne]

/-- C1 witness: on the one-prediction fixture the returned probabilities sum
to exactly `1 - HOUSE_EDGE`. -/
theorem getMarketOdds_sum_houseEdge_witness :
    listProbSum (marketOddsRun StoreOnePrediction 0 "p1") = .num (1 - HOUSE_EDGE) := by
  have h1 : getMarketOdds StoreOnePrediction 0 "p1" =
      .ok (marketOddsRun StoreOnePrediction 0 "p1") := rfl
  refine (getMarketOdds_sum_houseEdge StoreOnePrediction 0 "p1" _ h1 ?_ ?_ ?_).2
  · refine ⟨{ id := "A", pollId := "p1", orderIndex := 0 }, ?_, rfl,
      { id := "w", userId := "X", pollId := "p1", optionId := "A", confidence := 1/2,
        points := 100, reasoning := none, payout := none, isResolved := false,
        createdAt := 0, resolvedAt := none }, ?_, rfl, rfl⟩
    · simp [StoreOnePrediction, StoreNoPredictions]
    · simp [StoreOnePrediction, StoreNoPredictions]
  · intro p hp
    simp [StoreOnePrediction, StoreNoPredictions] at hp
    rw [hp]
    norm_num
  · intro p hp
    simp [StoreOnePrediction, StoreNoPredictions] at hp
    rw [hp]
    norm_num

/-- C9 (amended).  On a poll with zero unresolved predictions,
`getMarketAnalytics` returns without failing; volume, predictor count,
average confidence, consensus and liquidity are all `0`, but
`marketEfficiency` is `1` (the below-two-predictions branch), and `volatility`
depends only on the stored snapshots (`0` when fewer than two exist). -/
theorem getMarketAnalytics_zero_predictions
    (s : Store) (pid : String)
    (hnone : unresolvedPredsOfPoll s pid = []) :
    (getMarketAnalytics s pid).totalVolume = 0 ∧
    (getMarketAnalytics s pid).uniquePredictors = 0 ∧
    (getMarketAnalytics s pid).averageConfidence = 0 ∧
    (getMarketAnalytics s pid).consensusProbability = 0 ∧
    (getMarketAnalytics s pid).marketEfficiency = 1 ∧
    (getMarketAnalytics s pid).liquidityIndex = 0 ∧
    ((s.snapshots.filter fun v => v.pollId == pid).length < 2 →
      (getMarketAnalytics s pid).volatility = 0) := by
  unfold getMarketAnalytics
  rw [hnone]
  refine ⟨rfl, rfl, rfl, rfl, rfl, ?_, ?_⟩
  · show calculateLiquidityIndex (List.sum []) (List.dedup (List.map Prediction.userId [])).length = 0
    simp [calculateLiquidityIndex]
  · intro hlen
    show calculateVolatility s pid = 0
    unfold calculateVolatility
    rw [if_pos]
    unfold snapshotsOfPoll
    rw [List.length_take, List.length_mergeSort]
    omega

/-- C9 counterexample: with zero unresolved predictions but two moving
snapshots, `marketEfficiency` is `1` and `volatility` is `20` — not the
all-zero metrics the claim asserts. -/
theorem analytics_zero_predictions_counterexample :
    (getMarketAnalytics StoreSnapshots "p1").marketEfficiency = 1 ∧
    (getMarketAnalytics StoreSnapshots "p1").volatility = 20 ∧
    ¬ ((1 : ℚ) = 0) ∧ ¬ ((20 : ℚ) = 0) := by
  refine ⟨rfl, ?_, by norm_num, by norm_num⟩
  have hsnap : snapshotsOfPoll StoreSnapshots "p1" =
      [{ pollId := "p1", snapshotDate := 1, percentage := 10 },
       { pollId := "p1", snapshotDate := 2, percentage := 30 }] := by
    unfold snapshotsOfPoll
    rw [show StoreSnapshots.snapshots.filter (fun v => v.pollId == "p1") =
      [{ pollId := "p1", snapshotDate := 1, percentage := 10 },
       { pollId := "p1", snapshotDate := 2, percentage := 30 }] from rfl]
    rw [mergeSort_pair]
    norm_num
  show calculateVolatility StoreSnapshots "p1" = 20
  unfold calculateVolatility
  rw [hsnap]
  norm_num [percentageChanges]

/-- C9 witness: on the fixture with no predictions and no snapshots, the
amended metrics hold, volatility included. -/
theorem analytics_zero_predictions_witness :
    (getMarketAnalytics StoreNoPredictions "p1").totalVolume = 0 ∧
    (getMarketAnalytics StoreNoPredictions "p1").marketEfficiency = 1 ∧
    (getMarketAnalytics StoreNoPredictions "p1").volatility = 0 := by
  have h := getMarketAnalytics_zero_predictions StoreNoPredictions "p1" rfl
  exact ⟨h.1, h.2.2.2.2.1, h.2.2.2.2.2.2 (by decide)⟩

/-! ## The submission upsert -/

theorem updatePollAnalytics_predictions (st : Store) (today : ℚ) (pid : String) :
    (updatePollAnalytics st today pid).predictions = st.predictions := by
  unfold updatePollAnalytics
  split <;> rfl

theorem unlockAchievement_predictions (st : Store) (uid name : String) :
    (unlockAchievement st uid name).predictions = st.predictions := by
  unfold unlockAchievement
  split
  · rfl
  · split <;> rfl

theorem foldl_unlockAchievement_predictions (uid : String) (names : List String)
    (st : Store) :
    (names.foldl (fun acc n => unlockAchievement acc uid n) st).predictions =
      st.predictions := by
  induction names generalizing st with
  | nil => rfl
  | cons n rest ih =>
    rw [List.foldl_cons, ih, unlockAchievement_predictions]

theorem checkPredictionAchievements_predictions (st : Store) (uid : String) :
    (checkPredictionAchievements st uid).predictions = st.predictions := by
  unfold checkPredictionAchievements
  exact foldl_unlockAchievement_predictions uid _ st

/-- C10.  When a submission overwrites the stored prediction for the same
`(userId, pollId)`, the returned and persisted row keeps its id, userId and
pollId but carries the new option, confidence, stake and reasoning, and its
`createdAt` is replaced by the new submission time. -/
theorem createPrediction_overwrite
    (s : Store) (now today : ℚ) (freshId : String) (payload : PredictionPayload)
    (ex ret : Prediction) (s2 : Store) (r : String)
    (hnd : (s.predictions.map Prediction.id).Nodup)
    (hex : (s.predictions.find? fun p =>
      p.userId == payload.userId && p.pollId == payload.pollId) = some ex)
    (hr : payload.reasoning = some r)
    (h1 : createPrediction s now today freshId payload = .ok (ret, s2)) :
    ret = { ex with
      optionId := payload.optionId
      confidence := payload.confidence
      points := payload.points
      reasoning := some r
      createdAt := now } ∧
    s2.predictions.find? (fun q => q.id == ex.id) = some ret := by
  unfold createPrediction at h1
  by_cases hc : payload.confidence < 0 ∨ 1 < payload.confidence
  · rw [if_pos hc] at h1; cases h1
  · rw [if_neg hc] at h1
    by_cases hp2 : payload.points < MIN_PREDICTION ∨ MAX_PREDICTION < payload.points
    · rw [if_pos hp2] at h1; cases h1
    · rw [if_neg hp2] at h1
      cases hfp : findPoll s payload.pollId with
      | none => rw [hfp] at h1; cases h1
      | some poll =>
        simp only [hfp] at h1
        by_cases ha : (!poll.isActive) = true
        · rw [if_pos ha] at h1; cases h1
        · rw [if_neg ha] at h1
          by_cases hexp : (match poll.expiresAt with
              | some t => decide (t < now) | none => false) = true
          · rw [if_pos hexp] at h1; cases h1
          · rw [if_neg hexp] at h1
            simp only [hex] at h1
            have hpair := Except.ok.inj h1
            have hret := congrArg Prod.fst hpair
            have hs2 := congrArg Prod.snd hpair
            simp only at hret hs2
            constructor
            · rw [← hret]
              simp [overwritePrediction, hr]
            · rw [← hs2, checkPredictionAchievements_predictions,
                updatePollAnalytics_predictions]
              show (updateBy Prediction.id ex.id (overwritePrediction payload now)
                s.predictions).find? (fun q => q.id == ex.id) = some ret
              rw [find?_updateBy Prediction.id ex.id ex.id
                (overwritePrediction payload now) (fun _x => rfl) s.predictions]
              rw [show (s.predictions.find? fun q => q.id == ex.id) = some ex from
                find?_eq_of_nodup_mem Prediction.id hnd (List.mem_of_find?_eq_some hex)]
              simp [hret]

/-- C10 witness: resubmitting over the stored prediction of
`StoreOnePrediction` keeps id/userId/pollId and replaces `createdAt` with the
new submission time 99. -/
theorem createPrediction_overwrite_witness :
    createPrediction StoreOnePrediction 99 50 "fresh" payloadUpdate =
      .ok ({ id := "w", userId := "X", pollId := "p1", optionId := "A",
             confidence := 1, points := 200, reasoning := some "why",
             payout := none, isResolved := false, createdAt := 99,
             resolvedAt := none },
           createPredictionRun StoreOnePrediction 99 50 "fresh" payloadUpdate) ∧
    (createPredictionRun StoreOnePrediction 99 50 "fresh" payloadUpdate).predictions.find?
        (fun q => q.id == "w") =
      some { id := "w", userId := "X", pollId := "p1", optionId := "A",
             confidence := 1, points := 200, reasoning := some "why",
             payout := none, isResolved := false, createdAt := 99,
             resolvedAt := none } := by
  have hok : createPrediction StoreOnePrediction 99 50 "fresh" payloadUpdate =
      .ok ({ id := "w", userId := "X", pollId := "p1", optionId := "A",
             confidence := 1, points := 200, reasoning := some "why",
             payout := none, isResolved := false, createdAt := 99,
             resolvedAt := none },
           createPredictionRun StoreOnePrediction 99 50 "fresh" payloadUpdate) := rfl
  have h := createPrediction_overwrite StoreOnePrediction 99 50 "fresh" payloadUpdate
    { id := "w", userId := "X", pollId := "p1", optionId := "A", confidence := 1/2,
      points := 100, reasoning := none, payout := none, isResolved := false,
      createdAt := 0, resolvedAt := none }
    _ _ "why" (by simp [StoreOnePrediction, StoreNoPredictions]) rfl rfl hok
  exact ⟨hok, h.2⟩

/-! ## Evaluations exhibiting the divergences -/

/-- C2 (code evaluation).  On a poll with zero predictions the normalization
step divides by `totalProb = 0`: the factor is `Infinity`, the probability
becomes `0 * Infinity = NaN`, and the implied odds render as `"1:NaN"` — not
the zero probability and `"∞:1"` sentinel the claim asserts. -/
theorem getMarketOdds_zero_predictions_nan :
    getMarketOdds StoreNoPredictions 0 "p1" =
      .ok [{ optionId := "A", optionText := "Yes", probability := JsNum.nan,
             impliedOdds := "1:NaN", volume := 0, trend := .stable, confidence := 0 }] ∧
    JsNum.nan ≠ JsNum.num 0 ∧ ("1:NaN" : String) ≠ "∞:1" := by
  refine ⟨?_, by decide, by decide⟩
  have hraw : mkRawOdds StoreNoPredictions 0 "p1" { id := "A", pollId := "p1", orderIndex := 0 } = { optionId := "A", optionText := "Yes", probability := 0, impliedOdds := "∞:1", volume := 0, trend := .stable, confidence := 0 } := by
    unfold mkRawOdds calculateTrend
    rw [show (StoreNoPredictions.predictions.filter fun p => p.optionId == "A" && decide ((0 : ℚ) - 24 * 60 * 60 * 1000 ≤ p.createdAt)) = [] from rfl]
    rw [List.mergeSort_nil]
    rfl
  unfold getMarketOdds
  simp only [show findPoll StoreNoPredictions "p1" = some { id := "p1", isActive := true, expiresAt := none, resolvedAt := none, resolutionResult := none, resolutionSource := none } from rfl]
  rw [show optionsOfPoll StoreNoPredictions "p1" = [{ id := "A", pollId := "p1", orderIndex := 0 }] from rfl]
  rw [List.map_singleton, hraw]
  rw [show (List.map RawOdds.probability [({ optionId := "A", optionText := "Yes", probability := 0, impliedOdds := "∞:1", volume := 0, trend := .stable, confidence := 0 } : RawOdds)]).sum = (0 : ℚ) from by simp]
  have hdiv : JsNum.jsDiv (1 - HOUSE_EDGE) 0 = JsNum.posInf := by
    unfold JsNum.jsDiv
    rw [if_neg (by norm_num), if_pos (by norm_num [HOUSE_EDGE])]
  rw [hdiv]
  rw [List.map_singleton]
  rw [show normalizeOdds JsNum.posInf { optionId := "A", optionText := "Yes", probability := 0, impliedOdds := "∞:1", volume := 0, trend := .stable, confidence := 0 } = { optionId := "A", optionText := "Yes", probability := JsNum.nan, impliedOdds := "1:NaN", volume := 0, trend := .stable, confidence := 0 } from rfl]
  rw [List.mergeSort_singleton]

/-- C6 (code evaluation).  Resolving a poll whose only prediction lost
(`winningPool = 0`) marks the poll resolved but returns before touching the
prediction rows: the losing prediction stays `isResolved = false` with a null
payout, breaking the lock-step lifecycle the claim asserts. -/
theorem resolvePoll_noWinner_leaves_predictions_unresolved :
    resolvePoll StoreLoserOnly 7 "p1" "A" "admin" =
      .ok (resolveRun StoreLoserOnly 7 "p1" "A" "admin") ∧
    findPoll (resolveRun StoreLoserOnly 7 "p1" "A" "admin") "p1" =
      some { id := "p1", isActive := false, expiresAt := none, resolvedAt := some 7,
             resolutionResult := some "A", resolutionSource := some "admin" } ∧
    (resolveRun StoreLoserOnly 7 "p1" "A" "admin").predictions.find?
        (fun q => q.id == "l") = some scenarioLoser ∧
    scenarioLoser.isResolved = false ∧ scenarioLoser.payout = none := by
  exact ⟨rfl, rfl, rfl, rfl, rfl⟩

/-- C8 (code evaluation).  `getLeaderboard` truncates to `limit` users in
store order before computing profits and sorting: with three users of net
profits 2, 20 and 990 (in store order) and `limit = 2`, the result is the
sorted pair `["2", "1"]` — the user with the largest net profit, `"3"`, is
dropped entirely. -/
theorem getLeaderboard_truncates_before_sorting :
    (getLeaderboard StoreLeaderboard 0 Timeframe.all 2).map LeaderboardEntry.userId =
      ["2", "1"] ∧
    (StoreLeaderboard.users.map fun u =>
      (leaderboardRow StoreLeaderboard none u).netProfit) = [2, 20, 990] := by
  refine ⟨?_, rfl⟩
  unfold getLeaderboard
  simp only [show getTimeframeStart 0 Timeframe.all = none from rfl]
  rw [show ((StoreLeaderboard.users.filter fun u => StoreLeaderboard.predictions.any fun p => p.userId == u.id && inTimeframe none p).take 2) = [lbUser "1", lbUser "2"] from rfl]
  rw [show ([lbUser "1", lbUser "2"].map (leaderboardRow StoreLeaderboard none)) = [leaderboardRow StoreLeaderboard none (lbUser "1"), leaderboardRow StoreLeaderboard none (lbUser "2")] from rfl]
  rw [mergeSort_pair]
  rw [show entryBefore (leaderboardRow StoreLeaderboard none (lbUser "1")) (leaderboardRow StoreLeaderboard none (lbUser "2")) = false from rfl]
  rfl

/-- C4 counterexample: in the specification's own scenario the single winning
payout is 155, which exceeds `totalPool * (1 - HOUSE_EDGE) = 142.5`; the
claimed conservation bound fails. -/
theorem payout_conservation_counterexample :
    ((((winningPredsOf StoreScenario "p1" "A").map fun p =>
        storedPayout (resolveRun StoreScenario 7 "p1" "A" "admin") p.id).sum : ℤ) : ℚ)
      = 155 ∧
    ¬ (((155 : ℤ) : ℚ) ≤ (totalPoolOf StoreScenario "p1" : ℚ) * (1 - HOUSE_EDGE)) := by
  have h1 : resolvePoll StoreScenario 7 "p1" "A" "admin" =
      .ok (resolveRun StoreScenario 7 "p1" "A" "admin") := rfl
  have hlist : unresolvedPredsOfPoll StoreScenario "p1" =
      [scenarioWinner, scenarioLoser] := rfl
  have hmemw : scenarioWinner ∈ unresolvedPredsOfPoll StoreScenario "p1" := by
    rw [hlist]; exact List.mem_cons_self _ _
  have hnd : (StoreScenario.predictions.map Prediction.id).Nodup := by
    simp [StoreScenario, scenarioWinner, scenarioLoser]
  have hW : winningPoolOf StoreScenario "p1" "A" = 100 := rfl
  have hT : totalPoolOf StoreScenario "p1" = 150 := rfl
  have hw : winningPoolOf StoreScenario "p1" "A" ≠ 0 := by rw [hW]; norm_num
  have hrow := resolvePoll_winner_row hnd hmemw rfl h1 hw
  have hsum : (((winningPredsOf StoreScenario "p1" "A").map fun p =>
      storedPayout (resolveRun StoreScenario 7 "p1" "A" "admin") p.id).sum : ℤ) = 155 := by
    rw [show winningPredsOf StoreScenario "p1" "A" = [scenarioWinner] from rfl]
    rw [List.map_singleton, List.sum_cons, List.sum_nil, add_zero]
    unfold storedPayout
    rw [hrow]
    show (winnerRowUpdate 7 (totalPoolOf StoreScenario "p1")
      (winningPoolOf StoreScenario "p1" "A") scenarioWinner scenarioWinner).payout.getD 0 = 155
    rw [hT, hW]
    norm_num [winnerRowUpdate, finalPayoutOf, scenarioWinner, HOUSE_EDGE]
  constructor
  · rw [hsum]; norm_num
  · rw [hT]; norm_num [HOUSE_EDGE]

/-- C4 witness: the amended bound holds on the concrete scenario
(155 ≤ 150 * 0.95 * 1.1 = 156.75). -/
theorem payout_total_bounded_witness :
    ((((winningPredsOf StoreScenario "p1" "A").map fun p =>
        storedPayout (resolveRun StoreScenario 7 "p1" "A" "admin") p.id).sum : ℤ) : ℚ) ≤
      (totalPoolOf StoreScenario "p1" : ℚ) * (1 - HOUSE_EDGE) * (1 + 0.1) := by
  have h1 : resolvePoll StoreScenario 7 "p1" "A" "admin" =
      .ok (resolveRun StoreScenario 7 "p1" "A" "admin") := rfl
  have hnd : (StoreScenario.predictions.map Prediction.id).Nodup := by
    simp [StoreScenario, scenarioWinner, scenarioLoser]
  have hw : (0 : ℤ) < winningPoolOf StoreScenario "p1" "A" := by
    rw [show winningPoolOf StoreScenario "p1" "A" = 100 from rfl]; norm_num
  have hpts : ∀ q ∈ StoreScenario.predictions, 0 ≤ q.points := by
    intro q hq
    simp [StoreScenario] at hq
    rcases hq with rfl | rfl <;> norm_num [scenarioWinner, scenarioLoser]
  have hconf : ∀ q ∈ StoreScenario.predictions, 0 ≤ q.confidence ∧ q.confidence ≤ 1 := by
    intro q hq
    simp [StoreScenario] at hq
    rcases hq with rfl | rfl <;> constructor <;> norm_num [scenarioWinner, scenarioLoser]
  exact (payout_total_bounded StoreScenario 7 "p1" "A" "admin" _ hnd h1 hw hpts hconf).1

end TapVote
